import Mathlib

/-!
# Verification of the daily / tier1 stock-recommendation artifact pipeline

A shallow embedding of the artifact discovery, CSV parsing and response
assembly layer of the repository (`src/lib/recommendations/*` and the daily
recommendation module), together with proofs of the specified properties.

Modelling conventions:
* A JavaScript number is modelled as `Option ℚ`, where `none` stands for a
  non-finite value (`NaN`, `±Infinity`).  All the code under study funnels
  non-finite values through `Number.isFinite` guards, so the finite/non-finite
  distinction is the only one that matters.
* A nullable numeric payload field is modelled by the three-valued `JsOpt`
  (`num`/`nan`/`null`), so that "this field is `null`, never `NaN`" is a
  meaningful statement.
* A parsed CSV record (`Record<string, string>`) is modelled as a function
  `String → Option String`.
* `Number(string)` is modelled for decimal literals (optional sign, integer
  and fractional digits, optional exponent); hexadecimal and other exotic
  literal forms do not occur in the artifacts.
* Wall-clock data (`generatedAt`) is omitted from the payload model, being
  external to the computation under study.
-/

set_option allowUnsafeReducibility true

/- Restore the default reducibility of the rational operations so that closed
pipeline computations (witnesses and counterexamples) can be checked by
evaluation; the kernel re-checks these reductions in full. -/
attribute [local semireducible] Rat.mul Rat.add Rat.sub Rat.inv Rat.ofScientific

namespace StockRec

/-- A JavaScript number: `none` models a non-finite value (`NaN` or `±∞`). -/
abbrev JNum := Option ℚ

/-- A JavaScript value that is either a number, `NaN`, or `null` (used for the
nullable numeric fields of the response payload). -/
inductive JsOpt where
  | num (q : ℚ)
  | nan
  | null
deriving DecidableEq, Repr

/-- `Number.isFinite(x) ? x : null` -/
def finiteOrNull : JNum → JsOpt
  | some q => .num q
  | none => .null

/-- `Math.round`: round half toward positive infinity. -/
def jsRound (q : ℚ) : ℤ := ⌊q + 1 / 2⌋

/-! ## String utilities (JS `trim`, `split(/\r?\n/)`, BOM stripping) -/

/-- Whitespace characters recognised by `String.prototype.trim` that occur in
the artifacts (including the byte-order mark, which JS treats as whitespace). -/
def isWsChar (c : Char) : Bool :=
  c = ' ' || c = '\t' || c = '\n' || c = '\r' || c = '\x0b' || c = '\x0c' ||
    c = '\u00A0' || c = '\uFEFF'

/-- Trim whitespace from both ends of a character list. -/
def trimChars (l : List Char) : List Char :=
  ((l.dropWhile isWsChar).reverse.dropWhile isWsChar).reverse

/-- `String.prototype.trim`. -/
def jsTrim (s : String) : String := ⟨trimChars s.data⟩

/-- Prepend a character to the first line of a line list. -/
def consHead (c : Char) : List (List Char) → List (List Char)
  | [] => [[c]]
  | l :: ls => (c :: l) :: ls

/-- `text.split(/\r?\n/)`: split on `\n`, consuming an immediately preceding
`\r`; a lone `\r` is an ordinary character. -/
def splitLines : List Char → List (List Char)
  | [] => [[]]
  | [c] => if c = '\n' then [[], []] else [[c]]
  | c :: c2 :: rest =>
    if c = '\n' then [] :: splitLines (c2 :: rest)
    else if c = '\r' && c2 = '\n' then [] :: splitLines rest
    else consHead c (splitLines (c2 :: rest))

/-- The `\n`-only splitter: `splitLines` up to line-final `\r`s, which the
per-line trim removes anyway (proof-side auxiliary). -/
def splitN : List Char → List (List Char)
  | [] => [[]]
  | c :: rest => if c = '\n' then [] :: splitN rest else consHead c (splitN rest)

/-- The byte-order mark. -/
def bomChar : Char := '\uFEFF'

/-- `text.replace` of a leading U+FEFF: strip a single leading byte-order mark. -/
def stripBom : List Char → List Char
  | c :: rest => if c = bomChar then rest else c :: rest
  | [] => []

/-! ## `Number(string)` and `toNumber` -/

/-- Numeric value of a digit list (most significant first). -/
def digitsVal (l : List Char) : ℕ :=
  l.foldl (fun acc c => acc * 10 + (c.toNat - '0'.toNat)) 0

/-- Split the longest leading run of decimal digits. -/
def spanDigits (l : List Char) : List Char × List Char :=
  (l.takeWhile Char.isDigit, l.dropWhile Char.isDigit)

/-- Parse `digits [. digits] | . digits`, returning value and remainder. -/
def parseMantissa (l : List Char) : Option (ℚ × List Char) :=
  let (ip, r1) := spanDigits l
  match r1 with
  | '.' :: r2 =>
    let (fp, r3) := spanDigits r2
    if ip = [] ∧ fp = [] then none
    else some ((digitsVal ip : ℚ) + (digitsVal fp : ℚ) / (10 : ℚ) ^ fp.length, r3)
  | _ => if ip = [] then none else some ((digitsVal ip : ℚ), r1)

/-- Parse an optional exponent suffix; the whole remainder must be consumed. -/
def parseExpSuffix (l : List Char) : Option ℚ :=
  match l with
  | [] => some 1
  | 'e' :: r | 'E' :: r =>
    let (sgn, r1) : ℚ × List Char :=
      match r with
      | '+' :: r2 => (1, r2)
      | '-' :: r2 => (-1, r2)
      | _ => (1, r)
    let (ds, r2) := spanDigits r1
    if ds = [] ∨ r2 ≠ [] then none
    else if sgn < 0 then some ((10 : ℚ) ^ (digitsVal ds))⁻¹
    else some ((10 : ℚ) ^ (digitsVal ds))
  | _ => none

/-- `Number(s)` on a trimmed, non-empty character list (sign + mantissa +
optional exponent).  Returns `none` for anything non-numeric. -/
def parseJsNumber (l : List Char) : JNum :=
  let (sgn, r) : ℚ × List Char :=
    match l with
    | '+' :: r1 => (1, r1)
    | '-' :: r1 => (-1, r1)
    | _ => (1, l)
  match parseMantissa r with
  | none => none
  | some (m, rest) =>
    match parseExpSuffix rest with
    | none => none
    | some e => some (sgn * m * e)

/-- `Number(s)`: whitespace-trimmed; the empty string converts to `0`;
non-numeric text converts to `NaN` (`none`). -/
def jsNumber (s : String) : JNum :=
  match (jsTrim s).data with
  | [] => some 0
  | l => parseJsNumber l

/-- `toNumber(raw)`: `undefined` or the empty string give `NaN`; otherwise
`Number(raw)` guarded by `Number.isFinite`. -/
def toNumber (raw : Option String) : JNum :=
  match raw with
  | none => none
  | some s => if s = "" then none else jsNumber s

/-! ## Lexicographic string comparison

`localeCompare` on the artifact keys and ISO dates (pure ASCII digits,
hyphens and underscores) coincides with code-unit lexicographic comparison,
modelled structurally here. -/

/-- Lexicographic strict order on character lists. -/
def lexLtB : List Char → List Char → Bool
  | [], [] => false
  | [], _ :: _ => true
  | _ :: _, [] => false
  | a :: as, b :: bs => if a < b then true else if b < a then false else lexLtB as bs

/-- `a < b` on strings (code-unit lexicographic). -/
def strLtB (a b : String) : Bool := lexLtB a.data b.data

/-- `a ≤ b` on strings (code-unit lexicographic). -/
def strLeB (a b : String) : Bool := !(strLtB b a)

theorem lexLtB_irrefl : ∀ a : List Char, lexLtB a a = false := by
  intro a
  induction a with
  | nil => rfl
  | cons c cs ih => simp [lexLtB, ih]

theorem lexLtB_trans : ∀ {a b c : List Char},
    lexLtB a b = true → lexLtB b c = true → lexLtB a c = true := by
  intro a
  induction a with
  | nil =>
    intro b c hab hbc
    cases b with
    | nil => simp [lexLtB] at hab
    | cons y ys =>
      cases c with
      | nil => simp [lexLtB] at hbc
      | cons z zs => simp [lexLtB]
  | cons x xs ih =>
    intro b c hab hbc
    cases b with
    | nil => simp [lexLtB] at hab
    | cons y ys =>
      cases c with
      | nil => simp [lexLtB] at hbc
      | cons z zs =>
        simp only [lexLtB] at hab hbc ⊢
        by_cases hxy : x < y
        · by_cases hyz : y < z
          · simp [lt_trans hxy hyz]
          · by_cases hzy : z < y
            · simp [hyz, hzy] at hbc
            · have hy : y = z := le_antisymm (not_lt.mp hzy) (not_lt.mp hyz)
              subst hy
              simp [hxy]
        · by_cases hyx : y < x
          · simp [hxy, hyx] at hab
          · have hx : x = y := le_antisymm (not_lt.mp hyx) (not_lt.mp hxy)
            subst hx
            simp only [lt_self_iff_false, if_false] at hab
            by_cases hxz : x < z
            · simp [hxz]
            · by_cases hzx : z < x
              · simp [hxz, hzx] at hbc
              · have hz : x = z := le_antisymm (not_lt.mp hzx) (not_lt.mp hxz)
                subst hz
                simp only [lt_self_iff_false, if_false] at hbc ⊢
                exact ih hab hbc

theorem lexLtB_eq_of_not : ∀ {a b : List Char},
    lexLtB a b = false → lexLtB b a = false → a = b := by
  intro a
  induction a with
  | nil =>
    intro b hab _
    cases b with
    | nil => rfl
    | cons y ys => simp [lexLtB] at hab
  | cons x xs ih =>
    intro b hab hba
    cases b with
    | nil => simp [lexLtB] at hba
    | cons y ys =>
      simp only [lexLtB] at hab hba
      by_cases hxy : x < y
      · simp [hxy] at hab
      · by_cases hyx : y < x
        · simp [hyx] at hba
        · have hx : x = y := le_antisymm (not_lt.mp hyx) (not_lt.mp hxy)
          subst hx
          simp only [lt_self_iff_false, if_false] at hab hba
          rw [ih hab hba]

theorem strLeB_refl (a : String) : strLeB a a = true := by
  simp [strLeB, strLtB, lexLtB_irrefl]

theorem strLeB_total (a b : String) : strLeB a b = true ∨ strLeB b a = true := by
  by_cases h1 : lexLtB b.data a.data = true
  · right
    simp only [strLeB, strLtB, Bool.not_eq_true']
    cases h2 : lexLtB a.data b.data
    · rfl
    · exact absurd (lexLtB_trans h1 h2) (by simp [lexLtB_irrefl])
  · left
    simp only [strLeB, strLtB, Bool.not_eq_true']
    exact Bool.eq_false_iff.mpr (fun hc => h1 hc)

theorem strLeB_trans {a b c : String} (h1 : strLeB a b = true)
    (h2 : strLeB b c = true) : strLeB a c = true := by
  simp only [strLeB, strLtB, Bool.not_eq_true'] at h1 h2 ⊢
  cases h3 : lexLtB c.data a.data
  · rfl
  · exfalso
    cases h4 : lexLtB b.data c.data
    · have hbc := lexLtB_eq_of_not h4 h2
      rw [hbc] at h1
      rw [h1] at h3
      exact Bool.false_ne_true h3
    · have hba := lexLtB_trans h4 h3
      rw [hba] at h1
      exact absurd h1 (by simp)

/-! ## CSV tokenizer (`splitCsvLine`) -/

/-- The quote-aware field scanner of `splitCsvLine`: `inQ` is the
`inQuotes` flag and `cur` the current cell accumulated in reverse.  A quote
inside quotes doubled by a second quote decodes to a literal quote; an
undoubled quote toggles the flag; a comma outside quotes closes the cell. -/
def splitFields : List Char → Bool → List Char → List (List Char)
  | [], _, cur => [cur.reverse]
  | [c], inQ, cur =>
    if c = '"' then [cur.reverse]
    else if c = ',' && !inQ then [cur.reverse, []]
    else [(c :: cur).reverse]
  | c :: c2 :: rest, inQ, cur =>
    if c = '"' then
      if inQ then
        if c2 = '"' then splitFields rest true ('"' :: cur)
        else splitFields (c2 :: rest) false cur
      else splitFields (c2 :: rest) true cur
    else if c = ',' && !inQ then cur.reverse :: splitFields (c2 :: rest) false []
    else splitFields (c2 :: rest) inQ (c :: cur)

/-- `splitCsvLine(line)`. -/
def splitCsvLine (line : String) : List String :=
  (splitFields line.data false []).map (fun cs => ⟨cs⟩)

/-! ## Record building (header-keyed rows) -/

/-- A parsed CSV record: `Record<string, string>`. -/
abbrev Rec := String → Option String

/-- Pair every header with its cell, substituting `""` for a missing cell
(`cols[i] ?? ""`); cells beyond the headers are dropped. -/
def padPairs : List String → List String → List (String × String)
  | [], _ => []
  | h :: hs, [] => (h, "") :: padPairs hs []
  | h :: hs, c :: cs => (h, c) :: padPairs hs cs

/-- Sequentially assign `row[header] = cell.trim()` over the pair list. -/
def assignAll : List (String × String) → Rec → Rec
  | [], r => r
  | (h, c) :: ps, r => assignAll ps (fun k => if k = h then some (jsTrim c) else r k)

/-- Build one record from the header list and the cell list. -/
def buildRow (hs cs : List String) : Rec :=
  assignAll (padPairs hs cs) (fun _ => none)

/-- First-match cell lookup in a header/cell pair list (proof-side
auxiliary for reasoning about `buildRow`). -/
def lookupCell (k : String) : List (String × String) → Option String
  | [] => none
  | (h, c) :: ps => if k = h then some c else lookupCell k ps

/-- Trim every raw line and drop the blank ones. -/
def cleanLines (ls : List String) : List String :=
  (ls.map jsTrim).filter (fun l => l ≠ "")

/-- The cleaned line list of an artifact text. -/
def csvLines (text : String) : List String :=
  cleanLines ((splitLines (stripBom text.data)).map (fun l => ⟨l⟩))

/-- Build the records from the cleaned lines: fewer than two lines yield no
records; the first line is the header row. -/
def parseRows : List String → List Rec
  | header :: l :: rest =>
    let headers := (splitCsvLine header).map jsTrim
    (l :: rest).map (fun line => buildRow headers (splitCsvLine line))
  | _ => []

/-- `parseCsv(text)`. -/
def parseCsv (text : String) : List Rec :=
  parseRows (csvLines text)

/-! ## Date helpers -/

/-- Leading `\d{4}-\d{2}-\d{2}` of a character list, when present. -/
def isoDatePart : List Char → Option (List Char)
  | a :: b :: c :: d :: '-' :: e :: f :: '-' :: g :: h :: _ =>
    if [a, b, c, d, e, f, g, h].all Char.isDigit then
      some [a, b, c, d, '-', e, f, '-', g, h]
    else none
  | _ => none

/-- `normalizeDate(raw)`: the leading ISO date of the trimmed input, or `""`. -/
def normalizeDate (raw : String) : String :=
  match isoDatePart (jsTrim raw).data with
  | some l => ⟨l⟩
  | none => ""

/-- `normalizeIsoDate(raw)`: `null` unless the trimmed input is exactly an ISO
date (the empty/absent input is falsy and yields `null`). -/
def normalizeIsoDate (raw : Option String) : Option String :=
  match raw with
  | none => none
  | some s =>
    let v := jsTrim s
    match v.data with
    | [a, b, c, d, '-', e, f, '-', g, h] =>
      if [a, b, c, d, e, f, g, h].all Char.isDigit then some v else none
    | _ => none

/-! ## The mapped daily CSV row -/

/-- The `DailyCsvRow` record produced by `mapCsvRows`. -/
structure DailyCsvRow where
  date : String
  rank : JNum
  ticker : String
  name : String
  close : JNum
  tradingValue : JNum
  dayReturn1d : JNum
  probability : JNum
  finalScore : JNum
  aiScore : JNum
  turnoverRankPct : JNum
  ret1dRankPct : JNum
  modelRankPct : JNum
  scoreTurnover : JNum
  scoreRet1d : JNum
  scoreModel : JNum
  maxReturnSinceBuy : JNum
  maxReturnPeakDate : String
deriving DecidableEq, Repr

/-- `a ?? b` over two record fields. -/
def jget (r : Rec) (k1 k2 : String) : Option String :=
  match r k1 with
  | some v => some v
  | none => r k2

/-- ASCII upper-casing (`toUpperCase`; tickers are ASCII). -/
def jsToUpper (s : String) : String := ⟨s.data.map Char.toUpper⟩

/-- The per-record mapping step of `mapCsvRows`. -/
def toDailyRow (r : Rec) : DailyCsvRow where
  date := normalizeDate ((jget r "Date" "date").getD "")
  rank := toNumber (r "rank")
  ticker := jsToUpper (jsTrim ((jget r "Ticker" "ticker").getD ""))
  name := jsTrim ((jget r "name" "Name").getD "")
  close := toNumber (jget r "Close" "close")
  tradingValue := toNumber (jget r "trading_value" "tradingValue")
  dayReturn1d := toNumber (jget r "ret_1d" "ret1d")
  probability := toNumber (jget r "prob_up_next_day" "probability")
  finalScore := toNumber (jget r "final_score" "finalScore")
  aiScore := toNumber (jget r "ai_score" "aiScore")
  turnoverRankPct := toNumber (jget r "turnover_rank_pct" "turnoverRankPct")
  ret1dRankPct := toNumber (jget r "ret1d_rank_pct" "ret1dRankPct")
  modelRankPct := toNumber (jget r "model_rank_pct" "modelRankPct")
  scoreTurnover := toNumber (jget r "score_turnover" "scoreTurnover")
  scoreRet1d := toNumber (jget r "score_ret1d" "scoreRet1d")
  scoreModel := toNumber (jget r "score_model" "scoreModel")
  maxReturnSinceBuy := toNumber (jget r "max_return_since_buy" "maxReturnSinceBuy")
  maxReturnPeakDate := normalizeDate ((jget r "max_return_peak_date" "maxReturnPeakDate").getD "")

/-- The minimal-validity filter of `mapCsvRows`. -/
def rowValidB (row : DailyCsvRow) : Bool :=
  row.date ≠ "" && row.ticker ≠ "" && row.rank.isSome && row.close.isSome &&
    row.probability.isSome

/-- Numeric value of a `JNum` for comparator purposes (only finite values reach
the comparators in the program, so the default is immaterial). -/
def jval (x : JNum) : ℚ := x.getD 0

/-- The row comparator of `mapCsvRows` read as a `≤`-style relation
(`cmp a b ≤ 0`): date descending, then rank ascending, then probability
descending, then ticker ascending. -/
def rowLeB (a b : DailyCsvRow) : Bool :=
  if a.date ≠ b.date then strLtB b.date a.date
  else if jval a.rank ≠ jval b.rank then decide (jval a.rank < jval b.rank)
  else if jval b.probability ≠ jval a.probability then
    decide (jval b.probability < jval a.probability)
  else decide (a.ticker ≤ b.ticker)

/-- `mapCsvRows(rawRows)`: map, filter by minimal validity, stable-sort. -/
def mapCsvRows (rawRows : List Rec) : List DailyCsvRow :=
  List.insertionSort (fun a b => rowLeB a b = true)
    ((rawRows.map toDailyRow).filter rowValidB)

/-! ## Reasoning text -/

/-- The response language. -/
inductive Lang where
  | ko
  | en
deriving DecidableEq, Repr

/-- `normalizeLanguage`. -/
def normalizeLanguage (language : Option String) : Lang :=
  if language = some "en" then .en else .ko

/-- Decimal digit string of a natural number padded on the left to `d` digits. -/
def padZeros (d : ℕ) (n : ℕ) : String :=
  let s := toString n
  ⟨List.replicate (d - s.length) '0'⟩ ++ s

/-- `x.toFixed(d)` for a finite value (rounding half away from zero on the
exact rational; the artifacts carry short decimal literals). -/
def qToFixed (d : ℕ) (q : ℚ) : String :=
  let n : ℕ := (⌊|q| * (10 : ℚ) ^ d + 1 / 2⌋).toNat
  let sign := if q < 0 then "-" else ""
  let ip := n / 10 ^ d
  let fp := n % 10 ^ d
  sign ++ toString ip ++ (if d = 0 then "" else "." ++ padZeros d fp)

/-- Group the reversed digit list in threes with commas. -/
def groupRevDigits : List Char → ℕ → List Char
  | [], _ => []
  | c :: cs, n =>
    if n = 3 then ',' :: c :: groupRevDigits cs 1
    else c :: groupRevDigits cs (n + 1)

/-- Thousands grouping of an integer (`Intl.NumberFormat` for `en-US` and
`ko-KR` both group by threes with commas). -/
def groupInt (i : ℤ) : String :=
  (if i < 0 then "-" else "") ++ ⟨(groupRevDigits (toString i.natAbs).data.reverse 0).reverse⟩

/-- `toTopBandText(pct)`. -/
def toTopBandText (pct : JNum) : String :=
  match pct with
  | none => "-"
  | some p => qToFixed 1 (max 0 ((1 - p) * 100)) ++ "%"

/-- `toSignedPctText(value)`. -/
def toSignedPctText (v : JNum) : String :=
  match v with
  | none => "-"
  | some q =>
    let pct := q * 100
    (if 0 ≤ pct then "+" else "") ++ qToFixed 2 pct ++ "%"

/-- `toEokText(value, language)`. -/
def toEokText (v : JNum) (language : Lang) : String :=
  match v with
  | none => "-"
  | some q =>
    let grouped := groupInt (jsRound (q / 100000000))
    if language = .en then grouped ++ "eok KRW" else grouped ++ "억"

/-- `.toFixed(3)` behind a `Number.isFinite` guard, else `"-"`. -/
def fixed3Text (v : JNum) : String :=
  match v with
  | none => "-"
  | some q => qToFixed 3 q

/-- `buildReasoning(row, language)` of the daily module. -/
def buildReasoning (row : DailyCsvRow) (language : Lang) : String :=
  let turnoverText := toEokText row.tradingValue language
  let ret1dText := toSignedPctText row.dayReturn1d
  let turnoverTopText := toTopBandText row.turnoverRankPct
  let retTopText := toTopBandText row.ret1dRankPct
  let modelTopText := toTopBandText row.modelRankPct
  let scoreText := fixed3Text row.finalScore
  let scoreTurnoverText := fixed3Text row.scoreTurnover
  let scoreRet1dText := fixed3Text row.scoreRet1d
  let scoreModelText := fixed3Text row.scoreModel
  let maxReturnText := toSignedPctText row.maxReturnSinceBuy
  let peakDateText := if row.maxReturnPeakDate = "" then "-" else row.maxReturnPeakDate
  match language with
  | .en =>
    "Turnover " ++ turnoverText ++ " (top " ++ turnoverTopText ++ "), 1D return " ++
      ret1dText ++ " (top " ++ retTopText ++ "), base-model signal top " ++
      modelTopText ++ "; final score " ++ scoreText ++ " [turnover " ++
      scoreTurnoverText ++ ", return " ++ scoreRet1dText ++ ", model " ++
      scoreModelText ++ "], max return after buy " ++ maxReturnText ++ " (peak " ++
      peakDateText ++ ")."
  | .ko =>
    "거래대금 " ++ turnoverText ++ "(상위 " ++ turnoverTopText ++ "), 1일 상승률 " ++
      ret1dText ++ "(상위 " ++ retTopText ++ "), 기존 모델 신호 상위 " ++
      modelTopText ++ "; 최종 점수 " ++ scoreText ++ "(거래대금 " ++
      scoreTurnoverText ++ " + 상승률 " ++ scoreRet1dText ++ " + 기존모델 " ++
      scoreModelText ++ "), 매수 후 최고수익률 " ++ maxReturnText ++ "(고점일 " ++
      peakDateText ++ ")."

/-! ## Response payload -/

/-- A rendered `DailyStockRecommendation` payload item. -/
structure DailyItem where
  id : String
  date : String
  rank : JNum
  probability : JNum
  tradingValue : JsOpt
  dayReturn1d : JsOpt
  finalScore : JsOpt
  turnoverRankPct : JsOpt
  ret1dRankPct : JsOpt
  modelRankPct : JsOpt
  scoreTurnover : JsOpt
  scoreRet1d : JsOpt
  scoreModel : JsOpt
  maxReturnSinceBuy : JsOpt
  maxReturnPeakDate : Option String
  symbol : String
  name : String
  currentPrice : JNum
  aiScore : ℤ
  fluctuationRate : ℚ
  reasoning : String
deriving DecidableEq, Repr

/-- String form of a JS number used inside the template id (the ranks carried
by the artifacts are small integers; the general decimal rendering of doubles
is abstracted by the rational's canonical print). -/
def jnumStr : JNum → String
  | none => "NaN"
  | some q => if q.den = 1 then toString q.num else toString q.num ++ "/" ++ toString q.den

/-- Build one payload item from a mapped row (the push inside
`getDailyRecommendations`). -/
def mkItem (row : DailyCsvRow) (language : Lang) : DailyItem where
  id := row.date ++ "-" ++ row.ticker ++ "-" ++ jnumStr row.rank
  date := row.date
  rank := row.rank
  probability := row.probability
  tradingValue := finiteOrNull row.tradingValue
  dayReturn1d := finiteOrNull row.dayReturn1d
  finalScore := finiteOrNull row.finalScore
  turnoverRankPct := finiteOrNull row.turnoverRankPct
  ret1dRankPct := finiteOrNull row.ret1dRankPct
  modelRankPct := finiteOrNull row.modelRankPct
  scoreTurnover := finiteOrNull row.scoreTurnover
  scoreRet1d := finiteOrNull row.scoreRet1d
  scoreModel := finiteOrNull row.scoreModel
  maxReturnSinceBuy := finiteOrNull row.maxReturnSinceBuy
  maxReturnPeakDate := if row.maxReturnPeakDate = "" then none else some row.maxReturnPeakDate
  symbol := row.ticker
  name := if row.name = "" then row.ticker else row.name
  currentPrice := row.close
  aiScore := match row.aiScore with | some q => jsRound q | none => 85
  fluctuationRate := match row.dayReturn1d with | some q => q * 100 | none => 0
  reasoning := buildReasoning row language

/-- One day group of the response. -/
structure DayGroup where
  date : String
  items : List DailyItem
deriving DecidableEq, Repr

/-- The `source` block of the response (`generatedAt` omitted: wall clock). -/
structure SourceInfo where
  file : Option String
  startDate : Option String
  endDate : Option String
deriving DecidableEq, Repr

/-- The `DailyRecommendationResponse` payload. -/
structure DailyPayload where
  source : SourceInfo
  days : List DayGroup
deriving DecidableEq, Repr

/-- The query options of `getDailyRecommendations`. -/
structure DailyOptions where
  language : Option String := none
  startDate : Option String := none
  endDate : Option String := none
  limitPerDay : JNum := none
  sourceFile : Option String := none

/-- The per-day limit actually used: `limitPerDay > 0 ? Math.floor(limitPerDay)
: 5` (a missing or non-positive limit silently becomes the default 5). -/
def effectiveLimit (l : JNum) : ℤ :=
  match l with
  | some q => if 0 < q then ⌊q⌋ else 5
  | none => 5

/-- Replace the value at an existing key, else append (`Map.set`). -/
def upsert : List (String × List DailyItem) → String → List DailyItem →
    List (String × List DailyItem)
  | [], k, v => [(k, v)]
  | (k', v') :: rest, k, v =>
    if k' = k then (k, v) :: rest else (k', v') :: upsert rest k v

/-- First-match association lookup (`Map.get`). -/
def assocFind (k : String) : List (String × List DailyItem) → Option (List DailyItem)
  | [] => none
  | (k', v) :: rest => if k' = k then some v else assocFind k rest

/-- One step of the grouping loop of `getDailyRecommendations`. -/
def addRow (limit : ℤ) (language : Lang) (g : List (String × List DailyItem))
    (row : DailyCsvRow) : List (String × List DailyItem) :=
  let arr := (assocFind row.date g).getD []
  if (arr.length : ℤ) ≥ limit then g
  else upsert g row.date (arr ++ [mkItem row language])

/-- Day-descending order on grouped entries (`b[0].localeCompare(a[0]) ≤ 0`). -/
def dateDescLe (a b : String × List DailyItem) : Prop := strLeB b.1 a.1 = true

instance : DecidableRel dateDescLe :=
  fun a b => inferInstanceAs (Decidable (strLeB b.1 a.1 = true))

instance : IsTotal (String × List DailyItem) dateDescLe :=
  ⟨fun a b => strLeB_total b.1 a.1⟩

instance : IsTrans (String × List DailyItem) dateDescLe :=
  ⟨fun _ _ _ h1 h2 => strLeB_trans h2 h1⟩

/-- Rank-ascending order on items (`a.rank - b.rank ≤ 0`). -/
def rankLe (a b : DailyItem) : Prop := jval a.rank ≤ jval b.rank

instance : DecidableRel rankLe := fun a b => inferInstanceAs (Decidable (jval a.rank ≤ jval b.rank))

instance : IsTotal DailyItem rankLe := ⟨fun a b => le_total (jval a.rank) (jval b.rank)⟩

instance : IsTrans DailyItem rankLe := ⟨fun _ _ _ h1 h2 => le_trans h1 h2⟩

/-- The date-window filter applied to the mapped rows. -/
def inWindow (startDate endDate : Option String) (row : DailyCsvRow) : Bool :=
  !(match startDate with | some sd => strLtB row.date sd | none => false) &&
    !(match endDate with | some ed => strLtB ed row.date | none => false)

/-- The body of `getDailyRecommendations` once the artifact text is in hand:
map/filter the parsed rows, group by date with the per-day cap, emit the day
groups most-recent-first with rank-ascending items. -/
def getDailyFromCsv (fileName : String) (rawCsv : String) (opts : DailyOptions) :
    DailyPayload :=
  let language := normalizeLanguage opts.language
  let startDate := normalizeIsoDate opts.startDate
  let endDate := normalizeIsoDate opts.endDate
  let limit := effectiveLimit opts.limitPerDay
  let rows := (mapCsvRows (parseCsv rawCsv)).filter (inWindow startDate endDate)
  let grouped := rows.foldl (addRow limit language) []
  let days := (List.insertionSort dateDescLe grouped).map
    (fun p => DayGroup.mk p.1 (List.insertionSort rankLe p.2))
  let responseStart := match startDate with
    | some s => some s
    | none => days.getLast?.map DayGroup.date
  let responseEnd := match endDate with
    | some e => some e
    | none => days.head?.map DayGroup.date
  ⟨⟨some fileName, responseStart, responseEnd⟩, days⟩

/-! ## Artifact discovery and resolution -/

/-- The fixed artifact directory (`LOGS_DIR`). -/
def logsDir : String := "logs"

/-- `path.join(LOGS_DIR, name)` for a separator-free name. -/
def joinLogs (name : String) : String := logsDir ++ "/" ++ name

/-- Strip an expected leading character sequence. -/
def stripLead : List Char → List Char → Option (List Char)
  | [], rest => some rest
  | p :: ps, c :: cs => if c = p then stripLead ps cs else none
  | _ :: _, [] => none

/-- Take exactly `n` leading decimal digits. -/
def takeDigits : ℕ → List Char → Option (List Char × List Char)
  | 0, rest => some ([], rest)
  | n + 1, c :: rest =>
    if c.isDigit then (takeDigits n rest).map (fun p => (c :: p.1, p.2)) else none
  | _ + 1, [] => none

/-- Full match of `^daily_top5_recommendations_(\d{8})(?:_to_(\d{8}))?\.csv$`,
returning the captured (start, end) dates with the end defaulting to the
start. -/
def dailyMatch (name : String) : Option (String × String) :=
  match stripLead "daily_top5_recommendations_".data name.data with
  | none => none
  | some rest =>
    match takeDigits 8 rest with
    | none => none
    | some (start, r1) =>
      if r1 = ".csv".data then some (⟨start⟩, ⟨start⟩)
      else
        match stripLead "_to_".data r1 with
        | none => none
        | some r2 =>
          match takeDigits 8 r2 with
          | none => none
          | some (ed, r3) =>
            if r3 = ".csv".data then some (⟨start⟩, ⟨ed⟩) else none

/-- The coverage key `end_start` of a matched filename. -/
def dailyKey (se : String × String) : String := se.2 ++ "_" ++ se.1

/-- Key-descending order on (name, key) candidates. -/
def keyDescLe (a b : String × String) : Prop := strLeB b.2 a.2 = true

instance : DecidableRel keyDescLe :=
  fun a b => inferInstanceAs (Decidable (strLeB b.2 a.2 = true))

instance : IsTotal (String × String) keyDescLe := ⟨fun a b => strLeB_total b.2 a.2⟩

instance : IsTrans (String × String) keyDescLe :=
  ⟨fun _ _ _ h1 h2 => strLeB_trans h2 h1⟩

/-- `findLatestDailyCsv`: among pattern-matching filenames, pick the one with
the lexicographically greatest coverage key (stable-descending sort, take the
head).  Returns the `(filePath, fileName)` pair. -/
def findLatestDailyCsv (files : List String) : Option (String × String) :=
  let cands := files.filterMap (fun n => (dailyMatch n).map (fun se => (n, dailyKey se)))
  match List.insertionSort keyDescLe cands with
  | [] => none
  | x :: _ => some (joinLogs x.1, x.1)

/-- `resolveDailyCsv(sourceFile)`: a falsy (absent or empty) source file falls
back to discovery; otherwise the name must match the artifact pattern or the
request resolves to nothing. -/
def resolveDailyCsv (files : List String) (sourceFile : Option String) :
    Option (String × String) :=
  match sourceFile with
  | none => findLatestDailyCsv files
  | some sf =>
    if sf = "" then findLatestDailyCsv files
    else if (dailyMatch sf).isSome then some (joinLogs sf, sf) else none

/-- `getDailyRecommendations`: resolve the artifact (from the directory
listing and an explicit source-file option), then assemble the payload from
its text.  `contentOf` stands for `readFile`. -/
def getDailyRecommendations (files : List String) (contentOf : String → String)
    (opts : DailyOptions) : DailyPayload :=
  match resolveDailyCsv files opts.sourceFile with
  | none => ⟨⟨none, normalizeIsoDate opts.startDate, normalizeIsoDate opts.endDate⟩, []⟩
  | some (fp, fn) => getDailyFromCsv fn (contentOf fp) opts

/-! ## The HTTP route of the daily query -/

/-- The limit-validation step of the daily GET route: a present `limit`
parameter must convert to a finite positive number or the request is rejected
with an explicit 400-style error. -/
def routeLimit (limitRaw : Option String) : Except String JNum :=
  match limitRaw with
  | none => .ok none
  | some s =>
    match jsNumber s with
    | none => .error "limit must be a positive number"
    | some q =>
      if q ≤ 0 then .error "limit must be a positive number" else .ok (some q)

/-- The daily GET route: validate the `limit` query parameter, then delegate
to `getDailyRecommendations`. -/
def dailyRoute (files : List String) (contentOf : String → String)
    (lang file startDate endDate limitRaw : Option String) :
    Except String DailyPayload :=
  match routeLimit limitRaw with
  | .error e => .error e
  | .ok lim =>
    .ok (getDailyRecommendations files contentOf
      { language := lang, startDate := startDate, endDate := endDate,
        limitPerDay := lim, sourceFile := file })

/-! ## Tier1 module (`src/lib/recommendations/tier1.ts`) -/

namespace Tier1

open StockRec

/-- `Math.min(...)` over a spread list (`none` on the empty list, where the
spread would give `Infinity`). -/
def jsMinList : List ℚ → Option ℚ
  | [] => none
  | x :: xs => some (xs.foldl min x)

/-- `Math.max(...)` over a spread list. -/
def jsMaxList : List ℚ → Option ℚ
  | [] => none
  | x :: xs => some (xs.foldl max x)

/-- `toAiScore` (first copy, `tier1.ts:127`): round the scaled value, then
clamp to `[0, 99]`; non-finite raw score gives 0; degenerate or non-finite
bounds give 85. -/
def toAiScore (rawScore minScore maxScore : JNum) : ℤ :=
  match rawScore with
  | none => 0
  | some s =>
    match minScore, maxScore with
    | some mn, some mx =>
      if mx ≤ mn then 85
      else max 0 (min 99 (jsRound (70 + (s - mn) / (mx - mn) * 29)))
    | _, _ => 85

/-- `toAiScore` (second copy, `tier1.ts:424`): clamp the scaled value to
`[0, 99]`, then round. -/
def toAiScoreV2 (rawScore minScore maxScore : JNum) : ℤ :=
  match rawScore with
  | none => 0
  | some s =>
    match minScore, maxScore with
    | some mn, some mx =>
      if mx ≤ mn then 85
      else jsRound (max 0 (min 99 (70 + (s - mn) / (mx - mn) * 29)))
    | _, _ => 85

/-- Full match of `^tier1_buy_candidates_(\d{8}_\d{6})\.csv$`. -/
def tier1Match (name : String) : Option String :=
  match stripLead "tier1_buy_candidates_".data name.data with
  | none => none
  | some rest =>
    match takeDigits 8 rest with
    | none => none
    | some (d1, r1) =>
      match r1 with
      | [] => none
      | c :: r2 =>
        if c = '_' then
          match takeDigits 6 r2 with
          | none => none
          | some (d2, r3) =>
            if r3 = ".csv".data then some (⟨d1 ++ '_' :: d2⟩) else none
        else none

/-- Timestamp-descending order on (name, timestamp) candidates. -/
def tsDescLe (a b : String × String) : Prop := strLeB b.2 a.2 = true

instance : DecidableRel tsDescLe :=
  fun a b => inferInstanceAs (Decidable (strLeB b.2 a.2 = true))

instance : IsTotal (String × String) tsDescLe := ⟨fun a b => strLeB_total b.2 a.2⟩

instance : IsTrans (String × String) tsDescLe :=
  ⟨fun _ _ _ h1 h2 => strLeB_trans h2 h1⟩

/-- `findLatestTier1Csv`. -/
def findLatestTier1Csv (files : List String) : Option (String × String) :=
  let cands := files.filterMap (fun n => (tier1Match n).map (fun ts => (n, ts)))
  match List.insertionSort tsDescLe cands with
  | [] => none
  | x :: _ => some (joinLogs x.1, x.1)

/-- `resolveTier1Csv(sourceFile)`. -/
def resolveTier1Csv (files : List String) (sourceFile : Option String) :
    Option (String × String) :=
  match sourceFile with
  | none => findLatestTier1Csv files
  | some sf =>
    if sf = "" then findLatestTier1Csv files
    else if (tier1Match sf).isSome then some (joinLogs sf, sf) else none

end Tier1

/-! ## Sample records for concrete checks -/

/-- A valid sample record (all required cells present and numeric). -/
def sampleRecA : Rec := fun k =>
  if k = "Date" then some "2026-01-02"
  else if k = "rank" then some "1"
  else if k = "Ticker" then some "AAA"
  else if k = "Close" then some "100"
  else if k = "prob_up_next_day" then some "0.6"
  else none

/-- A second valid sample record. -/
def sampleRecB : Rec := fun k =>
  if k = "Date" then some "2026-01-03"
  else if k = "rank" then some "2"
  else if k = "Ticker" then some "BBB"
  else if k = "Close" then some "50"
  else if k = "prob_up_next_day" then some "0.4"
  else none

/-- A malformed sample record (every cell missing). -/
def sampleRecBad : Rec := fun _ => none

/-! ## Helper lemmas -/

theorem jsRound_le_jsRound {x y : ℚ} (h : x ≤ y) : jsRound x ≤ jsRound y :=
  Int.floor_le_floor (add_le_add_right h _)

theorem jsRound_zero : jsRound 0 = 0 := by
  norm_num [jsRound]

theorem jsRound_ninetynine : jsRound 99 = 99 := by
  rw [jsRound, Int.floor_eq_iff]
  norm_num

/-- Rounding then clamping to `[0, 99]` agrees with clamping then rounding. -/
theorem jsRound_clamp_comm (x : ℚ) :
    jsRound (max 0 (min 99 x)) = max 0 (min 99 (jsRound x)) := by
  rcases le_or_lt x 0 with h0 | h0
  · have h99 : x ≤ 99 := h0.trans (by norm_num)
    rw [min_eq_right h99, max_eq_left h0]
    have hr : jsRound x ≤ 0 := by
      have := jsRound_le_jsRound h0
      rwa [jsRound_zero] at this
    rw [jsRound_zero, min_eq_right (hr.trans (by norm_num)), max_eq_left hr]
  · rcases le_or_lt 99 x with h99 | h99
    · rw [min_eq_left h99, max_eq_right (by norm_num : (0 : ℚ) ≤ 99)]
      have hr : 99 ≤ jsRound x := by
        have := jsRound_le_jsRound h99
        rwa [jsRound_ninetynine] at this
      rw [jsRound_ninetynine, min_eq_left hr,
        max_eq_right (by norm_num : (0 : ℤ) ≤ 99)]
    · rw [min_eq_right h99.le, max_eq_right h0.le]
      have hlo : 0 ≤ jsRound x := by
        have := jsRound_le_jsRound h0.le
        rwa [jsRound_zero] at this
      have hhi : jsRound x ≤ 99 := by
        have := jsRound_le_jsRound h99.le
        rwa [jsRound_ninetynine] at this
      rw [min_eq_right hhi, max_eq_right hlo]

/-! ## Claim theorems -/

/-- C1.  Over any candidate list with finite scores and `minScore`/`maxScore`
its spread minimum/maximum: when `maxScore > minScore`, both copies of
`toAiScore` compute `round(70 + (s − min)/(max − min) × 29)` clamped to
`[0, 99]` for every finite raw score `s`; when `maxScore ≤ minScore`, both
return the fixed score 85. -/
theorem claim_c1 (scores : List ℚ) (mn mx s : ℚ)
    (_hmn : Tier1.jsMinList scores = some mn)
    (_hmx : Tier1.jsMaxList scores = some mx) :
    (mn < mx →
      Tier1.toAiScore (some s) (some mn) (some mx) =
          max 0 (min 99 (jsRound (70 + (s - mn) / (mx - mn) * 29))) ∧
        Tier1.toAiScoreV2 (some s) (some mn) (some mx) =
          max 0 (min 99 (jsRound (70 + (s - mn) / (mx - mn) * 29)))) ∧
    (mx ≤ mn →
      Tier1.toAiScore (some s) (some mn) (some mx) = 85 ∧
        Tier1.toAiScoreV2 (some s) (some mn) (some mx) = 85) := by
  clear _hmn _hmx
  constructor
  · intro h
    constructor
    · simp [Tier1.toAiScore, not_le.mpr h]
    · simp only [Tier1.toAiScoreV2, if_neg (not_le.mpr h)]
      exact jsRound_clamp_comm _
  · intro h
    constructor
    · simp [Tier1.toAiScore, h]
    · simp [Tier1.toAiScoreV2, h]

/-- Witness for C1 at the score list `[1, 9, 5]` (min 1, max 9, score 5):
the normalized score is `round(70 + 4/8·29) = 85` via the clamped formula. -/
theorem claim_c1_witness :
    Tier1.toAiScore (some 5) (some 1) (some 9) =
        max 0 (min 99 (jsRound (70 + ((5 : ℚ) - 1) / (9 - 1) * 29))) ∧
      Tier1.toAiScoreV2 (some 5) (some 1) (some 9) =
        max 0 (min 99 (jsRound (70 + ((5 : ℚ) - 1) / (9 - 1) * 29))) :=
  (claim_c1 [1, 9, 5] 1 9 5 (by decide) (by decide)).1 (by norm_num)

/-- C3, counterexample.  A direct call of the daily recommendation query with
`limitPerDay = -1` is not rejected: it returns the same ordinary non-empty
payload as the default call, the non-positive limit having been silently
replaced by the default 5. -/
theorem claim_c3_counterexample :
    effectiveLimit (some (-1)) = 5 ∧
      getDailyRecommendations ["daily_top5_recommendations_20260102.csv"]
          (fun _ => "Date,rank,Ticker,Close,prob_up_next_day\n2026-01-02,1,AAA,100,0.6")
          { limitPerDay := some (-1) } =
        getDailyRecommendations ["daily_top5_recommendations_20260102.csv"]
          (fun _ => "Date,rank,Ticker,Close,prob_up_next_day\n2026-01-02,1,AAA,100,0.6")
          { limitPerDay := none } ∧
      (getDailyRecommendations ["daily_top5_recommendations_20260102.csv"]
          (fun _ => "Date,rank,Ticker,Close,prob_up_next_day\n2026-01-02,1,AAA,100,0.6")
          { limitPerDay := some (-1) }).days ≠ [] := by
  refine ⟨by decide, ?_, by decide⟩
  decide

/-- C3, amended.  The HTTP GET route rejects a present `limit` query parameter
that is non-numeric or non-positive with an explicit caller-input error, but
`getDailyRecommendations` itself does not reject a non-positive `limitPerDay`:
it silently replaces it with the default per-day limit 5. -/
theorem claim_c3_amended :
    (∀ s : String, jsNumber s = none →
      routeLimit (some s) = .error "limit must be a positive number") ∧
    (∀ s : String, ∀ q : ℚ, jsNumber s = some q → q ≤ 0 →
      routeLimit (some s) = .error "limit must be a positive number") ∧
    (∀ q : ℚ, q ≤ 0 → effectiveLimit (some q) = 5) := by
  refine ⟨?_, ?_, ?_⟩
  · intro s h
    simp [routeLimit, h]
  · intro s q h hq
    simp [routeLimit, h, hq]
  · intro q hq
    simp [effectiveLimit, not_lt.mpr hq]

/-- Witness for C3 (amended): the route rejects `limit=abc` and `limit=-1`,
while the query body maps `limitPerDay = -1` to the default 5. -/
theorem claim_c3_amended_witness :
    routeLimit (some "abc") = .error "limit must be a positive number" ∧
      routeLimit (some "-1") = .error "limit must be a positive number" ∧
      effectiveLimit (some (-1)) = 5 :=
  ⟨claim_c3_amended.1 "abc" (by decide),
    claim_c3_amended.2.1 "-1" (-1) (by decide) (by norm_num),
    claim_c3_amended.2.2 (-1) (by norm_num)⟩

/-- C7, counterexample.  A header-less artifact (a single data line) is not
fatal: `parseCsv` yields no records and `getDailyRecommendations` returns an
ordinary non-error payload with an empty `days` list — there is no
`ArtifactCorruptError` path in the code. -/
theorem claim_c7_counterexample :
    parseCsv "2026-01-02,1,AAA,100,0.6" = [] ∧
      getDailyRecommendations ["daily_top5_recommendations_20260102.csv"]
          (fun _ => "2026-01-02,1,AAA,100,0.6") {} =
        ⟨⟨some "daily_top5_recommendations_20260102.csv", none, none⟩, []⟩ := by
  exact ⟨rfl, by decide⟩

/-- C7, amended.  A header-less or wholly unparseable artifact degrades to an
ordinary empty payload instead of failing: fewer than two clean lines parse to
no records at all, and whenever `parseCsv` yields no records the assembled
response is the well-formed payload with an empty `days` list. -/
theorem claim_c7_amended :
    (∀ text : String, (csvLines text).length ≤ 1 → parseCsv text = []) ∧
    (∀ fileName text : String, ∀ opts : DailyOptions, parseCsv text = [] →
      getDailyFromCsv fileName text opts =
        ⟨⟨some fileName, normalizeIsoDate opts.startDate,
          normalizeIsoDate opts.endDate⟩, []⟩) := by
  constructor
  · intro text h
    rw [show parseCsv text = parseRows (csvLines text) from rfl]
    match hl : csvLines text with
    | [] => rfl
    | [_] => rfl
    | _ :: _ :: _ => rw [hl] at h; simp at h
  · intro fileName text opts h
    unfold getDailyFromCsv
    rw [h]
    cases hs : normalizeIsoDate opts.startDate <;>
      cases he : normalizeIsoDate opts.endDate <;>
        simp [mapCsvRows, hs, he]

/-- Witness for C7 (amended) on a concrete header-less artifact text. -/
theorem claim_c7_amended_witness :
    parseCsv "2026-01-03,2,BBB,5,0.4" = [] ∧
      getDailyFromCsv "f.csv" "2026-01-03,2,BBB,5,0.4" {} =
        ⟨⟨some "f.csv", none, none⟩, []⟩ :=
  ⟨claim_c7_amended.1 "2026-01-03,2,BBB,5,0.4" (by decide),
    claim_c7_amended.2 "f.csv" "2026-01-03,2,BBB,5,0.4" {}
      (claim_c7_amended.1 "2026-01-03,2,BBB,5,0.4" (by decide))⟩

/-- C9.  `buildReasoning` is a pure function of the numeric row fields it
reads and the language selection: two rows agreeing on those fields produce
byte-identical reasoning strings, whatever their other fields. -/
theorem claim_c9 (r1 r2 : DailyCsvRow) (lang : Lang)
    (h1 : r1.tradingValue = r2.tradingValue)
    (h2 : r1.dayReturn1d = r2.dayReturn1d)
    (h3 : r1.turnoverRankPct = r2.turnoverRankPct)
    (h4 : r1.ret1dRankPct = r2.ret1dRankPct)
    (h5 : r1.modelRankPct = r2.modelRankPct)
    (h6 : r1.finalScore = r2.finalScore)
    (h7 : r1.scoreTurnover = r2.scoreTurnover)
    (h8 : r1.scoreRet1d = r2.scoreRet1d)
    (h9 : r1.scoreModel = r2.scoreModel)
    (h10 : r1.maxReturnSinceBuy = r2.maxReturnSinceBuy)
    (h11 : r1.maxReturnPeakDate = r2.maxReturnPeakDate) :
    buildReasoning r1 lang = buildReasoning r2 lang := by
  unfold buildReasoning
  rw [h1, h2, h3, h4, h5, h6, h7, h8, h9, h10, h11]

/-- Witness for C9: two rows identical on the reasoning inputs but with
different tickers, prices and probabilities give the same English text. -/
theorem claim_c9_witness :
    buildReasoning
        ⟨"2026-01-02", some 1, "AAA", "Alpha", some 100, some 3000000000,
          some (1 / 50), some (3 / 5), some (7 / 10), some 80, some (9 / 10),
          some (4 / 5), some (1 / 2), some (2 / 5), some (3 / 10),
          some (3 / 20), some (1 / 10), "2026-01-05"⟩ Lang.en =
      buildReasoning
        ⟨"2026-01-03", some 2, "BBB", "Beta", some 55, some 3000000000,
          some (1 / 50), some (1 / 5), some (7 / 10), some 60, some (9 / 10),
          some (4 / 5), some (1 / 2), some (2 / 5), some (3 / 10),
          some (3 / 20), some (1 / 10), "2026-01-05"⟩ Lang.en :=
  claim_c9 _ _ Lang.en rfl rfl rfl rfl rfl rfl rfl rfl rfl rfl rfl

/-- C10.  In the assembled payload item, each of the ten nullable numeric
fields is `null` — never `NaN` — whenever its CSV cell is missing or
non-numeric, while in the same situation `fluctuationRate` is 0 and `aiScore`
is 85. -/
theorem claim_c10 (r : Rec) (lang : Lang) :
    ((toDailyRow r).tradingValue = none →
      (mkItem (toDailyRow r) lang).tradingValue = JsOpt.null) ∧
    (mkItem (toDailyRow r) lang).tradingValue ≠ JsOpt.nan ∧
    ((toDailyRow r).dayReturn1d = none →
      (mkItem (toDailyRow r) lang).dayReturn1d = JsOpt.null) ∧
    (mkItem (toDailyRow r) lang).dayReturn1d ≠ JsOpt.nan ∧
    ((toDailyRow r).finalScore = none →
      (mkItem (toDailyRow r) lang).finalScore = JsOpt.null) ∧
    (mkItem (toDailyRow r) lang).finalScore ≠ JsOpt.nan ∧
    ((toDailyRow r).turnoverRankPct = none →
      (mkItem (toDailyRow r) lang).turnoverRankPct = JsOpt.null) ∧
    (mkItem (toDailyRow r) lang).turnoverRankPct ≠ JsOpt.nan ∧
    ((toDailyRow r).ret1dRankPct = none →
      (mkItem (toDailyRow r) lang).ret1dRankPct = JsOpt.null) ∧
    (mkItem (toDailyRow r) lang).ret1dRankPct ≠ JsOpt.nan ∧
    ((toDailyRow r).modelRankPct = none →
      (mkItem (toDailyRow r) lang).modelRankPct = JsOpt.null) ∧
    (mkItem (toDailyRow r) lang).modelRankPct ≠ JsOpt.nan ∧
    ((toDailyRow r).scoreTurnover = none →
      (mkItem (toDailyRow r) lang).scoreTurnover = JsOpt.null) ∧
    (mkItem (toDailyRow r) lang).scoreTurnover ≠ JsOpt.nan ∧
    ((toDailyRow r).scoreRet1d = none →
      (mkItem (toDailyRow r) lang).scoreRet1d = JsOpt.null) ∧
    (mkItem (toDailyRow r) lang).scoreRet1d ≠ JsOpt.nan ∧
    ((toDailyRow r).scoreModel = none →
      (mkItem (toDailyRow r) lang).scoreModel = JsOpt.null) ∧
    (mkItem (toDailyRow r) lang).scoreModel ≠ JsOpt.nan ∧
    ((toDailyRow r).maxReturnSinceBuy = none →
      (mkItem (toDailyRow r) lang).maxReturnSinceBuy = JsOpt.null) ∧
    (mkItem (toDailyRow r) lang).maxReturnSinceBuy ≠ JsOpt.nan ∧
    ((toDailyRow r).dayReturn1d = none →
      (mkItem (toDailyRow r) lang).fluctuationRate = 0) ∧
    ((toDailyRow r).aiScore = none →
      (mkItem (toDailyRow r) lang).aiScore = 85) := by
  generalize toDailyRow r = row
  have hnn : ∀ x : JNum, finiteOrNull x ≠ JsOpt.nan := by
    intro x
    cases x <;> simp [finiteOrNull]
  refine ⟨fun h => ?_, ?_, fun h => ?_, ?_, fun h => ?_, ?_, fun h => ?_, ?_,
    fun h => ?_, ?_, fun h => ?_, ?_, fun h => ?_, ?_, fun h => ?_, ?_,
    fun h => ?_, ?_, fun h => ?_, ?_, fun h => ?_, fun h => ?_⟩ <;>
    first
      | simp [mkItem, h, finiteOrNull]
      | exact hnn _

/-- Witness for C10 at the empty record (every cell missing). -/
theorem claim_c10_witness :
    (mkItem (toDailyRow (fun _ => none)) Lang.ko).tradingValue = JsOpt.null ∧
      (mkItem (toDailyRow (fun _ => none)) Lang.ko).fluctuationRate = 0 ∧
      (mkItem (toDailyRow (fun _ => none)) Lang.ko).aiScore = 85 :=
  ⟨(claim_c10 (fun _ => none) Lang.ko).1 (by decide),
    (claim_c10 (fun _ => none) Lang.ko).2.2.2.2.2.2.2.2.2.2.2.2.2.2.2.2.2.2.2.2.1
      (by decide),
    (claim_c10 (fun _ => none) Lang.ko).2.2.2.2.2.2.2.2.2.2.2.2.2.2.2.2.2.2.2.2.2
      (by decide)⟩

/-- C6.  A row list whose single invalid row (unparseable date, empty symbol,
or non-numeric rank/close/probability) sits between two wholly valid segments
maps to exactly the rows of the valid segments: the bad row is dropped
silently, every other row survives, and the valid row count drops by exactly
one relative to the input length (the function is total, so nothing raises). -/
theorem claim_c6 (xs ys : List Rec) (bad : Rec)
    (hxs : ∀ r ∈ xs, rowValidB (toDailyRow r) = true)
    (hys : ∀ r ∈ ys, rowValidB (toDailyRow r) = true)
    (hbad : rowValidB (toDailyRow bad) = false) :
    mapCsvRows (xs ++ bad :: ys) = mapCsvRows (xs ++ ys) ∧
      (mapCsvRows (xs ++ bad :: ys)).length = xs.length + ys.length := by
  have hfil : ((xs ++ bad :: ys).map toDailyRow).filter rowValidB =
      ((xs ++ ys).map toDailyRow).filter rowValidB := by
    simp [List.filter_cons, hbad]
  have hall : ((xs ++ ys).map toDailyRow).filter rowValidB =
      (xs ++ ys).map toDailyRow := by
    apply List.filter_eq_self.mpr
    intro a ha
    rcases List.mem_map.mp ha with ⟨r, hr, rfl⟩
    rcases List.mem_append.mp hr with h | h
    · exact hxs r h
    · exact hys r h
  constructor
  · unfold mapCsvRows
    rw [hfil]
  · unfold mapCsvRows
    rw [(List.perm_insertionSort _ _).length_eq, hfil, hall, List.length_map,
      List.length_append]

/-- Witness for C6: one malformed record between two valid ones is dropped,
leaving exactly the two valid rows. -/
theorem claim_c6_witness :
    mapCsvRows ([sampleRecA] ++ sampleRecBad :: [sampleRecB]) =
        mapCsvRows ([sampleRecA] ++ [sampleRecB]) ∧
      (mapCsvRows ([sampleRecA] ++ sampleRecBad :: [sampleRecB])).length = 2 :=
  claim_c6 [sampleRecA] [sampleRecB] sampleRecBad (by decide) (by decide)
    (by decide)

/-- C2.  `findLatestDailyCsv` returns nothing exactly when no filename matches
the daily artifact pattern, and otherwise returns a matching filename from the
listing, resolved inside the artifact directory, whose (end, start) coverage
key is lexicographically greatest among all matching filenames. -/
theorem claim_c2 (files : List String) :
    (findLatestDailyCsv files = none ↔ ∀ f ∈ files, dailyMatch f = none) ∧
    (∀ fp fn, findLatestDailyCsv files = some (fp, fn) →
      fn ∈ files ∧ fp = joinLogs fn ∧
        ∃ se, dailyMatch fn = some se ∧
          ∀ g ∈ files, ∀ se2, dailyMatch g = some se2 →
            strLeB (dailyKey se2) (dailyKey se) = true) := by
  have hperm : List.Perm
      (List.insertionSort keyDescLe
        (files.filterMap (fun n => (dailyMatch n).map (fun se => (n, dailyKey se)))))
      (files.filterMap (fun n => (dailyMatch n).map (fun se => (n, dailyKey se)))) :=
    List.perm_insertionSort _ _
  constructor
  · constructor
    · intro h f hf
      simp only [findLatestDailyCsv] at h
      cases hs : List.insertionSort keyDescLe
          (files.filterMap (fun n => (dailyMatch n).map (fun se => (n, dailyKey se)))) with
      | nil =>
        rw [hs] at hperm
        have hnil := List.perm_nil.mp hperm.symm
        have := List.filterMap_eq_nil_iff.mp hnil f hf
        exact Option.map_eq_none'.mp this
      | cons x t =>
        rw [hs] at h
        simp at h
    · intro h
      simp only [findLatestDailyCsv]
      have hnil : files.filterMap
          (fun n => (dailyMatch n).map (fun se => (n, dailyKey se))) = [] := by
        apply List.filterMap_eq_nil_iff.mpr
        intro a ha
        rw [h a ha]
        rfl
      rw [hnil]
      rfl
  · intro fp fn h
    simp only [findLatestDailyCsv] at h
    cases hs : List.insertionSort keyDescLe
        (files.filterMap (fun n => (dailyMatch n).map (fun se => (n, dailyKey se)))) with
    | nil =>
      rw [hs] at h
      simp at h
    | cons x t =>
      rw [hs] at h
      simp only [Option.some.injEq, Prod.mk.injEq] at h
      obtain ⟨hfp, hfn⟩ := h
      have hx : x ∈ files.filterMap
          (fun n => (dailyMatch n).map (fun se => (n, dailyKey se))) := by
        rw [hs] at hperm
        exact hperm.subset (List.mem_cons_self x t)
      rcases List.mem_filterMap.mp hx with ⟨n, hn, hmap⟩
      cases hm : dailyMatch n with
      | none =>
        rw [hm] at hmap
        simp at hmap
      | some se =>
        rw [hm] at hmap
        simp only [Option.map_some', Option.some.injEq] at hmap
        have hx1 : x.1 = n := by rw [← hmap]
        have hx2 : x.2 = dailyKey se := by rw [← hmap]
        refine ⟨by rw [← hfn, hx1]; exact hn, by rw [← hfp, ← hfn], se,
          by rw [← hfn, hx1]; exact hm, ?_⟩
        intro g hg se2 hm2
        have hgmem : (g, dailyKey se2) ∈ files.filterMap
            (fun n => (dailyMatch n).map (fun se => (n, dailyKey se))) := by
          apply List.mem_filterMap.mpr
          exact ⟨g, hg, by rw [hm2]; rfl⟩
        have hsorted := List.sorted_insertionSort keyDescLe
          (files.filterMap (fun n => (dailyMatch n).map (fun se => (n, dailyKey se))))
        rw [hs] at hsorted
        have hmem2 : (g, dailyKey se2) ∈ x :: t := by
          rw [← hs]
          exact hperm.symm.subset hgmem
        rcases List.mem_cons.mp hmem2 with heq | hmem
        · have h2 : dailyKey se2 = x.2 := by rw [← heq]
          rw [h2, hx2]
          exact strLeB_refl _
        · have hrel := List.rel_of_sorted_cons hsorted _ hmem
          unfold keyDescLe at hrel
          rw [← hx2]
          exact hrel

/-- Witness for C2: among two matching artifacts and one stray file, the file
with coverage key `20260110_20251201` beats the one with `20260101_20260101`;
a listing with no match yields `none`. -/
theorem claim_c2_witness :
    ("daily_top5_recommendations_20251201_to_20260110.csv" ∈
        (["junk.txt", "daily_top5_recommendations_20260101.csv",
          "daily_top5_recommendations_20251201_to_20260110.csv"] : List String) ∧
      "logs/daily_top5_recommendations_20251201_to_20260110.csv" =
        joinLogs "daily_top5_recommendations_20251201_to_20260110.csv" ∧
      ∃ se, dailyMatch "daily_top5_recommendations_20251201_to_20260110.csv" =
          some se ∧
        ∀ g ∈ (["junk.txt", "daily_top5_recommendations_20260101.csv",
            "daily_top5_recommendations_20251201_to_20260110.csv"] : List String),
          ∀ se2, dailyMatch g = some se2 →
            strLeB (dailyKey se2) (dailyKey se) = true) ∧
      findLatestDailyCsv ["junk.txt", "readme.md"] = none :=
  ⟨(claim_c2 ["junk.txt", "daily_top5_recommendations_20260101.csv",
      "daily_top5_recommendations_20251201_to_20260110.csv"]).2
      "logs/daily_top5_recommendations_20251201_to_20260110.csv"
      "daily_top5_recommendations_20251201_to_20260110.csv" (by decide),
    (claim_c2 ["junk.txt", "readme.md"]).1.mpr (by decide)⟩

theorem mem_upsert_cases {g : List (String × List DailyItem)} {k : String}
    {v : List DailyItem} {p : String × List DailyItem} (hp : p ∈ upsert g k v) :
    p = (k, v) ∨ p ∈ g := by
  induction g with
  | nil =>
    simp only [upsert, List.mem_singleton] at hp
    exact Or.inl hp
  | cons hd tl ih =>
    obtain ⟨k', v'⟩ := hd
    simp only [upsert] at hp
    by_cases hk : k' = k
    · rw [if_pos hk] at hp
      rcases List.mem_cons.mp hp with heq | hmem
      · exact Or.inl heq
      · exact Or.inr (List.mem_cons_of_mem _ hmem)
    · rw [if_neg hk] at hp
      rcases List.mem_cons.mp hp with heq | hmem
      · exact Or.inr (heq ▸ List.mem_cons_self _ _)
      · rcases ih hmem with h | h
        · exact Or.inl h
        · exact Or.inr (List.mem_cons_of_mem _ h)

theorem addRow_bound {limit : ℤ} {lang : Lang}
    {g : List (String × List DailyItem)} {row : DailyCsvRow}
    (hg : ∀ p ∈ g, (p.2.length : ℤ) ≤ limit) :
    ∀ p ∈ addRow limit lang g row, (p.2.length : ℤ) ≤ limit := by
  intro p hp
  simp only [addRow] at hp
  by_cases hcap : (((assocFind row.date g).getD []).length : ℤ) ≥ limit
  · rw [if_pos hcap] at hp
    exact hg p hp
  · rw [if_neg hcap] at hp
    rcases mem_upsert_cases hp with heq | hmem
    · subst heq
      simp only [List.length_append, List.length_singleton]
      push_cast
      omega
    · exact hg p hmem

theorem foldl_addRow_bound (limit : ℤ) (lang : Lang) (rows : List DailyCsvRow) :
    ∀ g : List (String × List DailyItem), (∀ p ∈ g, (p.2.length : ℤ) ≤ limit) →
      ∀ p ∈ rows.foldl (addRow limit lang) g, (p.2.length : ℤ) ≤ limit := by
  induction rows with
  | nil =>
    intro g hg
    simpa using hg
  | cons r rs ih =>
    intro g hg
    exact ih _ (addRow_bound hg)

/-- C4.  For every artifact text and every positive requested per-day limit,
the assembled `days` are ordered most-recent date first, each day's items are
ordered by rank ascending, and each day's item list is capped by the requested
limit (even when that limit is below the persisted top-N). -/
theorem claim_c4 (fileName rawCsv : String) (opts : DailyOptions) (q : ℚ)
    (hq : 0 < q) (hlim : opts.limitPerDay = some q) :
    ((getDailyFromCsv fileName rawCsv opts).days.Pairwise
        (fun a b => strLeB b.date a.date = true)) ∧
      (∀ d ∈ (getDailyFromCsv fileName rawCsv opts).days,
        d.items.Pairwise rankLe) ∧
      (∀ d ∈ (getDailyFromCsv fileName rawCsv opts).days,
        (d.items.length : ℚ) ≤ q) := by
  have hdays : (getDailyFromCsv fileName rawCsv opts).days =
      (List.insertionSort dateDescLe
          (((mapCsvRows (parseCsv rawCsv)).filter
              (inWindow (normalizeIsoDate opts.startDate)
                (normalizeIsoDate opts.endDate))).foldl
            (addRow (effectiveLimit opts.limitPerDay)
              (normalizeLanguage opts.language)) [])).map
        (fun p => DayGroup.mk p.1 (List.insertionSort rankLe p.2)) := rfl
  rw [hdays]
  refine ⟨?_, ?_, ?_⟩
  · exact List.Pairwise.map _ (fun a b hab => hab)
      (List.sorted_insertionSort dateDescLe _)
  · intro d hd
    rcases List.mem_map.mp hd with ⟨p, hp, rfl⟩
    exact List.sorted_insertionSort rankLe p.2
  · intro d hd
    rcases List.mem_map.mp hd with ⟨p, hp, rfl⟩
    have hp2 : p ∈ ((mapCsvRows (parseCsv rawCsv)).filter
        (inWindow (normalizeIsoDate opts.startDate)
          (normalizeIsoDate opts.endDate))).foldl
        (addRow (effectiveLimit opts.limitPerDay)
          (normalizeLanguage opts.language)) [] :=
      (List.perm_insertionSort dateDescLe _).subset hp
    have hbound := foldl_addRow_bound (effectiveLimit opts.limitPerDay)
      (normalizeLanguage opts.language) _ [] (by simp) p hp2
    rw [hlim] at hbound
    simp only [effectiveLimit, if_pos hq] at hbound
    have hlen : (List.insertionSort rankLe p.2).length = p.2.length :=
      (List.perm_insertionSort rankLe p.2).length_eq
    simp only [hlen]
    have hcast : ((p.2.length : ℤ) : ℚ) ≤ q := Int.le_floor.mp hbound
    exact_mod_cast hcast

/-- Witness for C4 on a three-row artifact over two dates with requested
limit 1. -/
theorem claim_c4_witness :
    ((getDailyFromCsv "f.csv"
          "Date,rank,Ticker,Close,prob_up_next_day\n2026-01-02,1,AAA,100,0.6\n2026-01-02,2,BBB,50,0.4\n2026-01-03,1,CCC,10,0.9"
          { limitPerDay := some 1 }).days.Pairwise
        (fun a b => strLeB b.date a.date = true)) ∧
      (∀ d ∈ (getDailyFromCsv "f.csv"
          "Date,rank,Ticker,Close,prob_up_next_day\n2026-01-02,1,AAA,100,0.6\n2026-01-02,2,BBB,50,0.4\n2026-01-03,1,CCC,10,0.9"
          { limitPerDay := some 1 }).days, d.items.Pairwise rankLe) ∧
      (∀ d ∈ (getDailyFromCsv "f.csv"
          "Date,rank,Ticker,Close,prob_up_next_day\n2026-01-02,1,AAA,100,0.6\n2026-01-02,2,BBB,50,0.4\n2026-01-03,1,CCC,10,0.9"
          { limitPerDay := some 1 }).days, (d.items.length : ℚ) ≤ 1) :=
  claim_c4 "f.csv"
    "Date,rank,Ticker,Close,prob_up_next_day\n2026-01-02,1,AAA,100,0.6\n2026-01-02,2,BBB,50,0.4\n2026-01-03,1,CCC,10,0.9"
    { limitPerDay := some 1 } 1 (by norm_num) rfl

theorem consHead_ne_nil (c : Char) (l : List (List Char)) : consHead c l ≠ [] := by
  cases l <;> simp [consHead]

theorem consHead_append (c : Char) {X : List (List Char)} (hX : X ≠ [])
    (Y : List (List Char)) : consHead c (X ++ Y) = consHead c X ++ Y := by
  cases X with
  | nil => exact absurd rfl hX
  | cons x xs => simp [consHead]

theorem splitN_ne_nil (cs : List Char) : splitN cs ≠ [] := by
  cases cs with
  | nil => simp [splitN]
  | cons c rest =>
    by_cases hc : c = '\n' <;> simp [splitN, hc, consHead_ne_nil]

theorem splitN_append_nl : ∀ cs : List Char, splitN (cs ++ ['\n']) = splitN cs ++ [[]] := by
  intro cs
  induction cs with
  | nil => rfl
  | cons c rest ih =>
    by_cases hc : c = '\n'
    · simp [splitN, hc, ih]
    · simp only [List.cons_append, splitN, if_neg hc]
      show consHead c (splitN (rest ++ ['\n'])) = consHead c (splitN rest) ++ [[]]
      rw [ih, consHead_append c (splitN_ne_nil rest)]

theorem forall2_consHead {X Y : List (List Char)} (c : Char)
    (h : List.Forall₂ (fun a b => b = a ∨ b = a ++ ['\r']) X Y) :
    List.Forall₂ (fun a b => b = a ∨ b = a ++ ['\r']) (consHead c X) (consHead c Y) := by
  cases h with
  | nil => exact List.Forall₂.cons (Or.inl rfl) List.Forall₂.nil
  | cons hxy htail =>
    rcases hxy with rfl | hr
    · exact List.Forall₂.cons (Or.inl rfl) htail
    · exact List.Forall₂.cons (Or.inr (by rw [hr, List.cons_append])) htail

theorem splitLines_forall2 :
    ∀ cs : List Char, List.Forall₂ (fun a b => b = a ∨ b = a ++ ['\r'])
      (splitLines cs) (splitN cs)
  | [] => by
    simp only [splitLines, splitN]
    exact List.Forall₂.cons (Or.inl rfl) List.Forall₂.nil
  | [c] => by
    by_cases hc : c = '\n'
    · simp only [splitLines, splitN, if_pos hc, consHead]
      exact List.Forall₂.cons (Or.inl rfl)
        (List.Forall₂.cons (Or.inl rfl) List.Forall₂.nil)
    · simp only [splitLines, splitN, if_neg hc, consHead]
      exact List.Forall₂.cons (Or.inl rfl) List.Forall₂.nil
  | c :: c2 :: rest => by
    by_cases hc : c = '\n'
    · simp only [splitLines, splitN, if_pos hc]
      exact List.Forall₂.cons (Or.inl rfl) (splitLines_forall2 (c2 :: rest))
    · by_cases hcr : c = '\r' ∧ c2 = '\n'
      · obtain ⟨h1, h2⟩ := hcr
        subst h1
        subst h2
        have e1 : splitLines ('\r' :: '\n' :: rest) = [] :: splitLines rest := by
          simp [splitLines]
        have e2 : splitN ('\r' :: '\n' :: rest) = ['\r'] :: splitN rest := by
          simp [splitN, consHead]
        rw [e1, e2]
        exact List.Forall₂.cons (Or.inr rfl) (splitLines_forall2 rest)
      · have hb : (c = '\r' && c2 = '\n') = false := by
          rcases Decidable.not_and_iff_or_not.mp hcr with h | h <;> simp [h]
        have e1 : splitLines (c :: c2 :: rest) = consHead c (splitLines (c2 :: rest)) := by
          rw [splitLines]
          rw [if_neg hc, hb]
          simp
        have e2 : splitN (c :: c2 :: rest) = consHead c (splitN (c2 :: rest)) := by
          rw [splitN, if_neg hc]
        rw [e1, e2]
        exact forall2_consHead c (splitLines_forall2 (c2 :: rest))

theorem trimChars_append_ws {c : Char} (hc : isWsChar c = true) (a : List Char) :
    trimChars (a ++ [c]) = trimChars a := by
  unfold trimChars
  rw [List.dropWhile_append]
  by_cases hd : (a.dropWhile isWsChar).isEmpty
  · rw [if_pos hd]
    rw [List.isEmpty_iff] at hd
    rw [hd]
    simp [List.dropWhile, hc]
  · rw [if_neg hd]
    rw [List.reverse_append]
    simp [List.dropWhile, hc]

theorem forall2_trim_map {X Y : List (List Char)}
    (h : List.Forall₂ (fun a b => b = a ∨ b = a ++ ['\r']) X Y) :
    Y.map (fun l => jsTrim ⟨l⟩) = X.map (fun l => jsTrim ⟨l⟩) := by
  induction h with
  | nil => rfl
  | cons hxy htail ih =>
    simp only [List.map_cons, ih]
    congr 1
    rcases hxy with rfl | hr
    · rfl
    · rw [hr]
      simp only [jsTrim]
      rw [trimChars_append_ws (by decide)]

theorem cleanLines_splitLines_nl (cs : List Char) :
    cleanLines ((splitLines (cs ++ ['\n'])).map (fun l => ⟨l⟩)) =
      cleanLines ((splitLines cs).map (fun l => ⟨l⟩)) := by
  have key : ∀ ds : List Char,
      ((splitLines ds).map (fun l => (⟨l⟩ : String))).map jsTrim =
        ((splitN ds).map (fun l => (⟨l⟩ : String))).map jsTrim := by
    intro ds
    rw [List.map_map, List.map_map]
    exact (forall2_trim_map (splitLines_forall2 ds)).symm
  unfold cleanLines
  rw [key, key, splitN_append_nl]
  simp [List.filter_append, jsTrim, trimChars]

theorem csvLines_append_nl (t : String) : csvLines (t ++ "\n") = csvLines t := by
  unfold csvLines
  have hdata : (t ++ "\n").data = t.data ++ ['\n'] := by
    rw [String.data_append]
  rw [hdata]
  have hbom : stripBom (t.data ++ ['\n']) = stripBom t.data ++ ['\n'] := by
    cases t.data with
    | nil => simp [stripBom, bomChar]
    | cons c rest =>
      simp only [List.cons_append, stripBom]
      by_cases hcb : c = bomChar
      · rw [if_pos hcb, if_pos hcb]
      · rw [if_neg hcb, if_neg hcb, List.cons_append]
  rw [hbom]
  exact cleanLines_splitLines_nl (stripBom t.data)

theorem cleanLines_blank (xs ys : List String) (w : String) (hw : jsTrim w = "") :
    cleanLines (xs ++ w :: ys) = cleanLines (xs ++ ys) := by
  simp [cleanLines, hw]

theorem padPairs_eq_zip : ∀ {hs cs : List String}, hs.length = cs.length →
    padPairs hs cs = hs.zip cs := by
  intro hs
  induction hs with
  | nil =>
    intro cs h
    cases cs with
    | nil => rfl
    | cons c cs' => simp at h
  | cons h hs ih =>
    intro cs hlen
    cases cs with
    | nil => simp at hlen
    | cons c cs' =>
      simp only [padPairs, List.zip_cons_cons]
      rw [ih (by simpa using hlen)]

theorem lookupCell_eq_none {k : String} : ∀ {ps : List (String × String)},
    k ∉ ps.map Prod.fst → lookupCell k ps = none := by
  intro ps
  induction ps with
  | nil => intro _; rfl
  | cons p ps ih =>
    intro h
    obtain ⟨h1, c⟩ := p
    simp only [List.map_cons, List.mem_cons] at h
    push_neg at h
    simp only [lookupCell, if_neg h.1, ih h.2]

theorem assignAll_lookup : ∀ (ps : List (String × String)) (r : Rec) (k : String),
    (ps.map Prod.fst).Nodup →
    assignAll ps r k = (match lookupCell k ps with
      | some v => some (jsTrim v)
      | none => r k) := by
  intro ps
  induction ps with
  | nil => intro r k _; rfl
  | cons p ps ih =>
    intro r k hnd
    obtain ⟨h, c⟩ := p
    simp only [List.map_cons, List.nodup_cons] at hnd
    obtain ⟨hnm, hnd'⟩ := hnd
    simp only [assignAll, lookupCell]
    rw [ih _ k hnd']
    by_cases hk : k = h
    · subst hk
      simp [lookupCell_eq_none hnm]
    · simp only [if_neg hk]

theorem lookupCell_perm : ∀ {ps ps' : List (String × String)}, List.Perm ps ps' →
    (ps.map Prod.fst).Nodup → ∀ k, lookupCell k ps = lookupCell k ps' := by
  intro ps ps' h
  induction h with
  | nil => intro _ k; rfl
  | cons x h ih =>
    intro hnd k
    obtain ⟨a, b⟩ := x
    simp only [List.map_cons, List.nodup_cons] at hnd
    simp only [lookupCell]
    rw [ih hnd.2 k]
  | swap x y l =>
    intro hnd k
    obtain ⟨a, b⟩ := x
    obtain ⟨c, d⟩ := y
    simp only [List.map_cons, List.nodup_cons, List.mem_cons] at hnd
    push_neg at hnd
    have hca : c ≠ a := hnd.1.1
    simp only [lookupCell]
    by_cases h1 : k = c
    · subst h1
      rw [if_pos rfl, if_neg hca, if_pos rfl]
    · by_cases h2 : k = a
      · subst h2
        rw [if_neg h1, if_pos rfl, if_pos rfl]
      · rw [if_neg h1, if_neg h2, if_neg h2, if_neg h1]
  | trans h1 h2 ih1 ih2 =>
    intro hnd k
    rw [ih1 hnd k, ih2 ((h1.map Prod.fst).nodup_iff.mp hnd) k]

theorem splitFields_openQuote (xs cur : List Char) :
    splitFields ('"' :: xs) false cur = splitFields xs true cur := by
  cases xs with
  | nil => rfl
  | cons d ds => rfl

theorem splitFields_lit : ∀ (cs : List Char), '"' ∉ cs → ∀ (rest cur : List Char),
    splitFields (cs ++ rest) true cur = splitFields rest true (cs.reverse ++ cur) := by
  intro cs
  induction cs with
  | nil =>
    intro _ rest cur
    simp
  | cons c cs' ih =>
    intro hq rest cur
    have hc : c ≠ '"' := by
      intro h
      exact hq (h ▸ List.mem_cons_self c cs')
    have hq' : '"' ∉ cs' := fun h => hq (List.mem_cons_of_mem c h)
    cases hcr : cs' ++ rest with
    | nil =>
      obtain ⟨h1, h2⟩ := List.append_eq_nil.mp hcr
      subst h1
      subst h2
      simp [splitFields, hc]
    | cons d ds =>
      have hshape : (c :: cs') ++ rest = c :: d :: ds := by
        rw [List.cons_append, hcr]
      rw [hshape]
      simp only [splitFields, if_neg hc, Bool.not_true, Bool.and_false,
        Bool.false_eq_true, if_false]
      rw [← hcr, ih hq' rest (c :: cur)]
      simp [List.append_assoc]

/-- C5.  The artifact parser (i) strips a single leading byte-order mark,
(ii) ignores a trailing line, (iii) ignores blank lines, (iv) keys each data
cell by header name so that reordering columns leaves every record unchanged,
and the tokenizer (v) parses a quoted field with embedded commas as one cell
and (vi) decodes a doubled quote inside a quoted field as one literal quote. -/
theorem claim_c5 :
    (∀ t : String, t.data.head? ≠ some bomChar →
      parseCsv ("\uFEFF" ++ t) = parseCsv t) ∧
    (∀ t : String, parseCsv (t ++ "\n") = parseCsv t) ∧
    (∀ xs ys : List String, ∀ w : String, jsTrim w = "" →
      parseRows (cleanLines (xs ++ w :: ys)) = parseRows (cleanLines (xs ++ ys))) ∧
    (∀ hs cs hs' cs' : List String, hs.Nodup → hs.length = cs.length →
      hs'.length = cs'.length → List.Perm (hs.zip cs) (hs'.zip cs') →
      ∀ k, buildRow hs cs k = buildRow hs' cs' k) ∧
    (∀ s : String, '"' ∉ s.data → splitCsvLine ("\"" ++ s ++ "\"") = [s]) ∧
    (∀ s t : String, '"' ∉ s.data → '"' ∉ t.data →
      splitCsvLine ("\"" ++ s ++ "\"\"" ++ t ++ "\"") = [s ++ "\"" ++ t]) := by
  refine ⟨?_, ?_, ?_, ?_, ?_, ?_⟩
  · intro t ht
    unfold parseCsv csvLines
    have hdata : ("\uFEFF" ++ t).data = bomChar :: t.data := by
      rw [String.data_append]
      rfl
    rw [hdata]
    have h1 : stripBom (bomChar :: t.data) = t.data := by
      simp [stripBom]
    have h2 : stripBom t.data = t.data := by
      cases hd : t.data with
      | nil => rfl
      | cons c rest =>
        have hcb : c ≠ bomChar := by
          intro h
          apply ht
          rw [hd, h]
          rfl
        simp [stripBom, hcb]
    rw [h1, h2]
  · intro t
    unfold parseCsv
    rw [csvLines_append_nl]
  · intro xs ys w hw
    rw [cleanLines_blank xs ys w hw]
  · intro hs cs hs' cs' hnd hlen hlen' hperm k
    unfold buildRow
    rw [padPairs_eq_zip hlen, padPairs_eq_zip hlen']
    have hkeys : (hs.zip cs).map Prod.fst = hs := List.map_fst_zip hs cs (le_of_eq hlen)
    have hnd1 : ((hs.zip cs).map Prod.fst).Nodup := by
      rw [hkeys]
      exact hnd
    have hnd2 : ((hs'.zip cs').map Prod.fst).Nodup :=
      ((hperm.map Prod.fst).nodup_iff).mp hnd1
    rw [assignAll_lookup _ _ k hnd1, assignAll_lookup _ _ k hnd2,
      lookupCell_perm hperm hnd1 k]
  · intro s hq
    unfold splitCsvLine
    have hdata : ("\"" ++ s ++ "\"").data = '"' :: (s.data ++ ['"']) := by
      rw [String.data_append, String.data_append]
      rfl
    rw [hdata, splitFields_openQuote, splitFields_lit s.data hq ['"'] []]
    simp [splitFields]
  · intro s t hqs hqt
    unfold splitCsvLine
    have hdata : ("\"" ++ s ++ "\"\"" ++ t ++ "\"").data =
        '"' :: (s.data ++ ('"' :: '"' :: (t.data ++ ['"']))) := by
      rw [String.data_append, String.data_append, String.data_append,
        String.data_append]
      show (((('"' :: s.data) ++ ['"', '"']) ++ t.data) ++ ['"']) = _
      simp
    rw [hdata, splitFields_openQuote, splitFields_lit s.data hqs _ []]
    rw [show splitFields ('"' :: '"' :: (t.data ++ ['"'])) true (s.data.reverse ++ []) =
        splitFields (t.data ++ ['"']) true ('"' :: (s.data.reverse ++ [])) from rfl]
    rw [splitFields_lit t.data hqt ['"'] _]
    simp [splitFields]
    refine String.ext ?_
    show s.data ++ '"' :: t.data = (s ++ "\"" ++ t).data
    rw [String.data_append, String.data_append]
    simp

/-- Witness for C5 on concrete artifacts: BOM stripping, a trailing newline,
an interior blank line, a column swap, a quoted comma field and a doubled
quote. -/
theorem claim_c5_witness :
    parseCsv ("\uFEFF" ++ "h,x\n1,2") = parseCsv "h,x\n1,2" ∧
      parseCsv ("h,x\n1,2" ++ "\n") = parseCsv "h,x\n1,2" ∧
      parseRows (cleanLines (["h,x"] ++ " " :: ["1,2"])) =
        parseRows (cleanLines (["h,x"] ++ ["1,2"])) ∧
      (∀ k, buildRow ["a", "b"] ["1", "2"] k = buildRow ["b", "a"] ["2", "1"] k) ∧
      splitCsvLine ("\"" ++ "x,y" ++ "\"") = ["x,y"] ∧
      splitCsvLine ("\"" ++ "a" ++ "\"\"" ++ "b" ++ "\"") = ["a" ++ "\"" ++ "b"] :=
  ⟨claim_c5.1 "h,x\n1,2" (by decide),
    claim_c5.2.1 "h,x\n1,2",
    claim_c5.2.2.1 ["h,x"] ["1,2"] " " (by decide),
    claim_c5.2.2.2.1 ["a", "b"] ["1", "2"] ["b", "a"] ["2", "1"] (by decide)
      (by decide) (by decide) (by decide),
    claim_c5.2.2.2.2.1 "x,y" (by decide),
    claim_c5.2.2.2.2.2 "a" "b" (by decide) (by decide)⟩

theorem stripLead_eq : ∀ {p l r : List Char}, stripLead p l = some r → l = p ++ r := by
  intro p
  induction p with
  | nil =>
    intro l r h
    simp only [stripLead, Option.some.injEq] at h
    rw [h, List.nil_append]
  | cons c p ih =>
    intro l r h
    cases l with
    | nil => simp [stripLead] at h
    | cons d ds =>
      simp only [stripLead] at h
      by_cases hd : d = c
      · rw [if_pos hd] at h
        rw [hd, List.cons_append, ← ih h]
      · rw [if_neg hd] at h
        exact absurd h (by simp)

theorem takeDigits_eq : ∀ {n : ℕ} {l ds r : List Char}, takeDigits n l = some (ds, r) →
    l = ds ++ r ∧ ∀ c ∈ ds, c.isDigit = true := by
  intro n
  induction n with
  | zero =>
    intro l ds r h
    simp only [takeDigits, Option.some.injEq, Prod.mk.injEq] at h
    obtain ⟨h1, h2⟩ := h
    subst h1
    subst h2
    simp
  | succ n ih =>
    intro l ds r h
    cases l with
    | nil => simp [takeDigits] at h
    | cons c cs =>
      simp only [takeDigits] at h
      by_cases hc : c.isDigit
      · rw [if_pos hc] at h
        cases ht : takeDigits n cs with
        | none =>
          rw [ht] at h
          simp at h
        | some p =>
          rw [ht] at h
          simp only [Option.map_some', Option.some.injEq, Prod.mk.injEq] at h
          obtain ⟨h1, h2⟩ := h
          obtain ⟨hcs, hdig⟩ := ih ht
          subst h1
          subst h2
          refine ⟨by rw [List.cons_append, ← hcs], ?_⟩
          intro a ha
          rcases List.mem_cons.mp ha with rfl | ha
          · exact hc
          · exact hdig a ha
      · rw [if_neg hc] at h
        exact absurd h (by simp)

theorem findLatestDailyCsv_some {files : List String} {fp fn : String}
    (h : findLatestDailyCsv files = some (fp, fn)) :
    fp = joinLogs fn ∧ (dailyMatch fn).isSome = true := by
  simp only [findLatestDailyCsv] at h
  cases hs : List.insertionSort keyDescLe
      (files.filterMap (fun n => (dailyMatch n).map (fun se => (n, dailyKey se)))) with
  | nil =>
    rw [hs] at h
    simp at h
  | cons x t =>
    rw [hs] at h
    simp only [Option.some.injEq, Prod.mk.injEq] at h
    obtain ⟨hfp, hfn⟩ := h
    have hx : x ∈ files.filterMap
        (fun n => (dailyMatch n).map (fun se => (n, dailyKey se))) :=
      (List.perm_insertionSort keyDescLe _).subset (hs ▸ List.mem_cons_self x t)
    rcases List.mem_filterMap.mp hx with ⟨n, _, hmap⟩
    cases hm : dailyMatch n with
    | none =>
      rw [hm] at hmap
      simp at hmap
    | some se =>
      rw [hm] at hmap
      simp only [Option.map_some', Option.some.injEq] at hmap
      have hx1 : x.1 = n := by rw [← hmap]
      refine ⟨by rw [← hfp, ← hfn], ?_⟩
      rw [← hfn, hx1, hm]
      rfl

theorem findLatestTier1Csv_some {files : List String} {fp fn : String}
    (h : Tier1.findLatestTier1Csv files = some (fp, fn)) :
    fp = joinLogs fn ∧ (Tier1.tier1Match fn).isSome = true := by
  simp only [Tier1.findLatestTier1Csv] at h
  cases hs : List.insertionSort Tier1.tsDescLe
      (files.filterMap (fun n => (Tier1.tier1Match n).map (fun ts => (n, ts)))) with
  | nil =>
    rw [hs] at h
    simp at h
  | cons x t =>
    rw [hs] at h
    simp only [Option.some.injEq, Prod.mk.injEq] at h
    obtain ⟨hfp, hfn⟩ := h
    have hx : x ∈ files.filterMap
        (fun n => (Tier1.tier1Match n).map (fun ts => (n, ts))) :=
      (List.perm_insertionSort Tier1.tsDescLe _).subset (hs ▸ List.mem_cons_self x t)
    rcases List.mem_filterMap.mp hx with ⟨n, _, hmap⟩
    cases hm : Tier1.tier1Match n with
    | none =>
      rw [hm] at hmap
      simp at hmap
    | some ts =>
      rw [hm] at hmap
      simp only [Option.map_some', Option.some.injEq] at hmap
      have hx1 : x.1 = n := by rw [← hmap]
      refine ⟨by rw [← hfp, ← hfn], ?_⟩
      rw [← hfn, hx1, hm]
      rfl

theorem dailyMatch_chars {n : String} {se : String × String}
    (h : dailyMatch n = some se) :
    ∀ c ∈ n.data, c.isDigit = true ∨ c ∈ "daily_top5_recommendations_to.csv".data := by
  have hpreSub : ∀ c ∈ "daily_top5_recommendations_".data,
      c ∈ "daily_top5_recommendations_to.csv".data := by decide
  have hcsvSub : ∀ c ∈ ".csv".data,
      c ∈ "daily_top5_recommendations_to.csv".data := by decide
  have htoSub : ∀ c ∈ "_to_".data,
      c ∈ "daily_top5_recommendations_to.csv".data := by decide
  unfold dailyMatch at h
  cases h1 : stripLead "daily_top5_recommendations_".data n.data with
  | none =>
    simp only [h1] at h
    simp at h
  | some rest =>
    simp only [h1] at h
    have hpre := stripLead_eq h1
    cases h2 : takeDigits 8 rest with
    | none =>
      simp only [h2] at h
      simp at h
    | some p =>
      simp only [h2] at h
      obtain ⟨ds, r1⟩ := p
      obtain ⟨hrest, hdig⟩ := takeDigits_eq h2
      by_cases h3 : r1 = ".csv".data
      · intro c hc
        rw [hpre, hrest, h3] at hc
        rcases List.mem_append.mp hc with hA | hB
        · exact Or.inr (hpreSub c hA)
        · rcases List.mem_append.mp hB with hB1 | hB2
          · exact Or.inl (hdig c hB1)
          · exact Or.inr (hcsvSub c hB2)
      · rw [if_neg h3] at h
        cases h4 : stripLead "_to_".data r1 with
        | none =>
          simp only [h4] at h
          simp at h
        | some r2 =>
          simp only [h4] at h
          have hto := stripLead_eq h4
          cases h5 : takeDigits 8 r2 with
          | none =>
            simp only [h5] at h
            simp at h
          | some p2 =>
            simp only [h5] at h
            obtain ⟨ds2, r3⟩ := p2
            obtain ⟨hr2, hdig2⟩ := takeDigits_eq h5
            by_cases h6 : r3 = ".csv".data
            · intro c hc
              rw [hpre, hrest, hto, hr2, h6] at hc
              rcases List.mem_append.mp hc with hA | hB
              · exact Or.inr (hpreSub c hA)
              · rcases List.mem_append.mp hB with hB1 | hB2
                · exact Or.inl (hdig c hB1)
                · rcases List.mem_append.mp hB2 with hC1 | hC2
                  · exact Or.inr (htoSub c hC1)
                  · rcases List.mem_append.mp hC2 with hD1 | hD2
                    · exact Or.inl (hdig2 c hD1)
                    · exact Or.inr (hcsvSub c hD2)
            · rw [if_neg h6] at h
              simp at h

theorem tier1Match_chars {n : String} {ts : String}
    (h : Tier1.tier1Match n = some ts) :
    ∀ c ∈ n.data, c.isDigit = true ∨ c ∈ "tier1_buy_candidates_.csv".data := by
  have hpreSub : ∀ c ∈ "tier1_buy_candidates_".data,
      c ∈ "tier1_buy_candidates_.csv".data := by decide
  have hcsvSub : ∀ c ∈ ".csv".data, c ∈ "tier1_buy_candidates_.csv".data := by decide
  unfold Tier1.tier1Match at h
  cases h1 : stripLead "tier1_buy_candidates_".data n.data with
  | none =>
    simp only [h1] at h
    simp at h
  | some rest =>
    simp only [h1] at h
    have hpre := stripLead_eq h1
    cases h2 : takeDigits 8 rest with
    | none =>
      simp only [h2] at h
      simp at h
    | some p =>
      simp only [h2] at h
      obtain ⟨d1, r1⟩ := p
      obtain ⟨hrest, hdig⟩ := takeDigits_eq h2
      cases hr1 : r1 with
      | nil =>
        simp only [hr1] at h
        simp at h
      | cons c0 r2 =>
        simp only [hr1] at h
        by_cases hc0 : c0 = '_'
        · rw [if_pos hc0] at h
          cases h5 : takeDigits 6 r2 with
          | none =>
            simp only [h5] at h
            simp at h
          | some p2 =>
            simp only [h5] at h
            obtain ⟨d2, r3⟩ := p2
            obtain ⟨hr2, hdig2⟩ := takeDigits_eq h5
            by_cases h6 : r3 = ".csv".data
            · intro c hc
              rw [hpre, hrest, hr1, hc0, hr2, h6] at hc
              rcases List.mem_append.mp hc with hA | hB
              · exact Or.inr (hpreSub c hA)
              · rcases List.mem_append.mp hB with hB1 | hB2
                · exact Or.inl (hdig c hB1)
                · rcases List.mem_cons.mp hB2 with rfl | hC
                  · exact Or.inr (by decide)
                  · rcases List.mem_append.mp hC with hD1 | hD2
                    · exact Or.inl (hdig2 c hD1)
                    · exact Or.inr (hcsvSub c hD2)
            · rw [if_neg h6] at h
              simp at h
        · rw [if_neg hc0] at h
          simp at h

/-- C8, counterexample.  The empty string is an explicitly supplied source
file that does not match the artifact pattern, yet `resolveDailyCsv` does not
treat it as not-found: being falsy, it falls back to latest-artifact
discovery and resolves a file. -/
theorem claim_c8_counterexample :
    dailyMatch "" = none ∧
      resolveDailyCsv ["daily_top5_recommendations_20260102.csv"] (some "") =
        some ("logs/daily_top5_recommendations_20260102.csv",
          "daily_top5_recommendations_20260102.csv") :=
  ⟨rfl, by decide⟩

/-- C8, amended.  A non-empty explicitly named source file that does not match
the artifact filename pattern resolves to nothing (not-found) in both the
daily and the tier1 resolver — the empty string is instead treated as no
selection and falls back to discovery — and every path either resolver ever
produces is the fixed artifact directory joined with a pattern-matching,
separator-free filename, so no caller-supplied path outside the artifact
directory is ever resolved. -/
theorem claim_c8_amended :
    (∀ files : List String, ∀ sf : String, sf ≠ "" → dailyMatch sf = none →
      resolveDailyCsv files (some sf) = none) ∧
    (∀ files : List String, ∀ sf : String, sf ≠ "" → Tier1.tier1Match sf = none →
      Tier1.resolveTier1Csv files (some sf) = none) ∧
    (∀ files : List String, ∀ sfo : Option String, ∀ fp fn : String,
      resolveDailyCsv files sfo = some (fp, fn) →
      fp = joinLogs fn ∧ (dailyMatch fn).isSome = true ∧
        '/' ∉ fn.data ∧ '\\' ∉ fn.data) ∧
    (∀ files : List String, ∀ sfo : Option String, ∀ fp fn : String,
      Tier1.resolveTier1Csv files sfo = some (fp, fn) →
      fp = joinLogs fn ∧ (Tier1.tier1Match fn).isSome = true ∧
        '/' ∉ fn.data ∧ '\\' ∉ fn.data) := by
  refine ⟨?_, ?_, ?_, ?_⟩
  · intro files sf hne hnm
    simp [resolveDailyCsv, hne, hnm]
  · intro files sf hne hnm
    simp [Tier1.resolveTier1Csv, hne, hnm]
  · intro files sfo fp fn h
    have base : fp = joinLogs fn ∧ (dailyMatch fn).isSome = true := by
      cases sfo with
      | none => exact findLatestDailyCsv_some h
      | some sf =>
        by_cases hemp : sf = ""
        · subst hemp
          exact findLatestDailyCsv_some (by simpa [resolveDailyCsv] using h)
        · by_cases hm : (dailyMatch sf).isSome
          · have hres : resolveDailyCsv files (some sf) = some (joinLogs sf, sf) := by
              simp [resolveDailyCsv, hemp, hm]
            rw [hres] at h
            simp only [Option.some.injEq, Prod.mk.injEq] at h
            obtain ⟨hfp, hfn⟩ := h
            exact ⟨by rw [← hfp, ← hfn], by rw [← hfn]; exact hm⟩
          · simp [resolveDailyCsv, hemp, hm] at h
    obtain ⟨hfp, hm⟩ := base
    rcases Option.isSome_iff_exists.mp hm with ⟨se, hse⟩
    refine ⟨hfp, hm, ?_, ?_⟩
    · intro hmem
      rcases dailyMatch_chars hse '/' hmem with hd | hal
      · exact absurd hd (by decide)
      · exact absurd hal (by decide)
    · intro hmem
      rcases dailyMatch_chars hse '\\' hmem with hd | hal
      · exact absurd hd (by decide)
      · exact absurd hal (by decide)
  · intro files sfo fp fn h
    have base : fp = joinLogs fn ∧ (Tier1.tier1Match fn).isSome = true := by
      cases sfo with
      | none => exact findLatestTier1Csv_some h
      | some sf =>
        by_cases hemp : sf = ""
        · subst hemp
          exact findLatestTier1Csv_some (by simpa [Tier1.resolveTier1Csv] using h)
        · by_cases hm : (Tier1.tier1Match sf).isSome
          · have hres : Tier1.resolveTier1Csv files (some sf) =
                some (joinLogs sf, sf) := by
              simp [Tier1.resolveTier1Csv, hemp, hm]
            rw [hres] at h
            simp only [Option.some.injEq, Prod.mk.injEq] at h
            obtain ⟨hfp, hfn⟩ := h
            exact ⟨by rw [← hfp, ← hfn], by rw [← hfn]; exact hm⟩
          · simp [Tier1.resolveTier1Csv, hemp, hm] at h
    obtain ⟨hfp, hm⟩ := base
    rcases Option.isSome_iff_exists.mp hm with ⟨ts, hts⟩
    refine ⟨hfp, hm, ?_, ?_⟩
    · intro hmem
      rcases tier1Match_chars hts '/' hmem with hd | hal
      · exact absurd hd (by decide)
      · exact absurd hal (by decide)
    · intro hmem
      rcases tier1Match_chars hts '\\' hmem with hd | hal
      · exact absurd hd (by decide)
      · exact absurd hal (by decide)

/-- Witness for C8 (amended): a non-matching explicit name is rejected by
both resolvers, and two resolved artifacts live inside `logs/` with
pattern-matching names. -/
theorem claim_c8_amended_witness :
    resolveDailyCsv ["daily_top5_recommendations_20260102.csv"]
        (some "../../etc/passwd") = none ∧
      Tier1.resolveTier1Csv [] (some "nope.txt") = none ∧
      ("logs/daily_top5_recommendations_20260102.csv" =
          joinLogs "daily_top5_recommendations_20260102.csv" ∧
        (dailyMatch "daily_top5_recommendations_20260102.csv").isSome = true ∧
        '/' ∉ "daily_top5_recommendations_20260102.csv".data ∧
        '\\' ∉ "daily_top5_recommendations_20260102.csv".data) ∧
      ("logs/tier1_buy_candidates_20260102_070000.csv" =
          joinLogs "tier1_buy_candidates_20260102_070000.csv" ∧
        (Tier1.tier1Match "tier1_buy_candidates_20260102_070000.csv").isSome = true ∧
        '/' ∉ "tier1_buy_candidates_20260102_070000.csv".data ∧
        '\\' ∉ "tier1_buy_candidates_20260102_070000.csv".data) :=
  ⟨claim_c8_amended.1 ["daily_top5_recommendations_20260102.csv"]
      "../../etc/passwd" (by decide) (by decide),
    claim_c8_amended.2.1 [] "nope.txt" (by decide) (by decide),
    claim_c8_amended.2.2.1 []
      (some "daily_top5_recommendations_20260102.csv")
      "logs/daily_top5_recommendations_20260102.csv"
      "daily_top5_recommendations_20260102.csv" (by decide),
    claim_c8_amended.2.2.2 []
      (some "tier1_buy_candidates_20260102_070000.csv")
      "logs/tier1_buy_candidates_20260102_070000.csv"
      "tier1_buy_candidates_20260102_070000.csv" (by decide)⟩

end StockRec
